import Mathlib

set_option maxRecDepth 8000

/-!
Verification of the readableSQL core formatter (`SQLFormatter.py`).

Python strings are modelled as `List Char` (`Str`).  Every `re`-based
operation of the source is embedded as an explicit character scanner that
follows the Python regex engine's leftmost / greedy / lazy backtracking
semantics for the concrete pattern in question; each scanner's doc comment
names the pattern it implements.  ASCII semantics are assumed for
case-mapping, `\w` and `\s`, matching the inputs the formatter handles.
Operations that can raise a Python exception (`max()` on an empty sequence,
indexing an empty list) are modelled in `Except PyErr`.
-/

/-- Python strings, modelled as lists of characters. -/
abbrev Str := List Char

/-- Conversion from Lean string literals to the model. -/
def S (s : String) : Str := s.data

/-- The Python `\s` class / `str.strip` whitespace set (ASCII part). -/
def pyWs (c : Char) : Bool :=
  c == ' ' || c == '\t' || c == '\n' || c == '\r' || c == '\x0b' || c == '\x0c'

/-- Python `str.lstrip()`. -/
def pylstrip (s : Str) : Str := s.dropWhile (fun c => pyWs c)

/-- Python `str.rstrip()`. -/
def pyrstrip (s : Str) : Str := (s.reverse.dropWhile (fun c => pyWs c)).reverse

/-- Python `str.strip()`. -/
def pystrip (s : Str) : Str := pyrstrip (pylstrip s)

/-- Python `str.rstrip(";")`. -/
def rstripSemi (s : Str) : Str := (s.reverse.dropWhile (fun c => c == ';')).reverse

/-- Python `str.upper()` (ASCII). -/
def upper (s : Str) : Str := s.map Char.toUpper

/-- `begins pat s`: does `s` start with `pat` (case-sensitive)? -/
def begins : Str → Str → Bool
  | [], _ => true
  | _ :: _, [] => false
  | p :: ps, c :: cs => p == c && begins ps cs

/-- `beginsCI pat s`: does `s` start with `pat`, ASCII case-insensitively? -/
def beginsCI : Str → Str → Bool
  | [], _ => true
  | _ :: _, [] => false
  | p :: ps, c :: cs => p.toUpper == c.toUpper && beginsCI ps cs

/-- Substring test (used only in theorem statements). -/
def hasSub (pat : Str) : Str → Bool
  | [] => begins pat []
  | c :: cs => begins pat (c :: cs) || hasSub pat cs

/-- Python `\w` (ASCII): letters, digits, underscore. -/
def wordChar (c : Char) : Bool := c.isAlpha || c.isDigit || c == '_'

/-- Decimal digit character. -/
def digitChar (n : Nat) : Char := Char.ofNat (48 + n)

/-- Decimal digits, fuelled (the fuel `n + 1` always suffices since the
value shrinks by a factor of ten per step). -/
def natToStrAux : Nat → Nat → Str
  | 0, _ => []
  | fuel + 1, n =>
    if n < 10 then [digitChar n]
    else natToStrAux fuel (n / 10) ++ [digitChar (n % 10)]

/-- Python `str(n)` for a natural number. -/
def natToStr (n : Nat) : Str := natToStrAux (n + 1) n

/-- Python `sep.join(xs)`. -/
def joinWith (sep : Str) : List Str → Str
  | [] => []
  | [x] => x
  | x :: y :: xs => x ++ sep ++ joinWith sep (y :: xs)

/-- `"\n".join`. -/
def joinNL (xs : List Str) : Str := joinWith [ '\n' ] xs

/-- Literal `--` (kept out of string literals). -/
def dd : Str := [ '-', '-' ]

/-! ## `smart_split_csv` (source lines 582-623)

The source maintains `in_single_quotes`, `escape_next_char` and
`parentheses_level` while scanning; we capture those three variables as
`ScanSt` and the per-character transition as `scanStep`. -/

structure ScanSt where
  inq : Bool
  esc : Bool
  lvl : Nat
deriving DecidableEq, Repr

def scanInit : ScanSt := ⟨false, false, 0⟩

/-- One character of the `smart_split_csv` scanner state transition:
escaped characters are consumed, `\\` arms the escape, `'` toggles the
quote flag, and outside quotes `(`/`)` adjust the (floored) depth. -/
def scanStep (st : ScanSt) (c : Char) : ScanSt :=
  if st.esc then { st with esc := false }
  else if c == '\\' then { st with esc := true }
  else if c == '\'' then { st with inq := !st.inq }
  else if !st.inq && c == '(' then { st with lvl := st.lvl + 1 }
  else if !st.inq && c == ')' then { st with lvl := st.lvl - 1 }
  else st

/-- Does this character split (a top-level comma, unescaped, unquoted)? -/
def isSplitComma (st : ScanSt) (c : Char) : Bool :=
  !st.esc && !st.inq && c == ',' && st.lvl == 0

/-- The character loop of `smart_split_csv`: on a splitting comma the
stripped current chunk is appended to `parts`, otherwise the character is
appended to `cur` and the state advances. -/
def smartFold : List Str → Str → ScanSt → Str → (List Str × Str × ScanSt)
  | parts, cur, st, [] => (parts, cur, st)
  | parts, cur, st, c :: cs =>
    if isSplitComma st c then smartFold (parts ++ [pystrip cur]) [] st cs
    else smartFold parts (cur ++ [c]) (scanStep st c) cs

/-- `SQLFormatter.smart_split_csv` (lines 582-623): split at top-level
commas respecting single quotes, backslash escapes and parentheses; the
trailing chunk is pushed when non-empty (or when nothing was split and the
input is not blank), and empty tokens are dropped. -/
def smart_split_csv (s : Str) : List Str :=
  let r := smartFold [] [] scanInit s
  let parts :=
    if !r.2.1.isEmpty || (r.1.isEmpty && !(pystrip s).isEmpty)
    then r.1 ++ [pystrip r.2.1]
    else r.1
  parts.filter (fun p => !p.isEmpty)

/-- End state of scanning a string (pure state transition, no splitting). -/
def scanEnd (st : ScanSt) (s : Str) : ScanSt := s.foldl scanStep st

/-- No splitting comma is hit while scanning `s` from `st`. -/
def noSplit : ScanSt → Str → Bool
  | _, [] => true
  | st, c :: cs => !isSplitComma st c && noSplit (scanStep st c) cs

/-- A token is *clean* when it is non-empty, equal to its own strip, hits
no top-level comma, and returns the scanner to the neutral state. -/
def cleanTok (t : Str) : Bool :=
  !t.isEmpty && decide (pystrip t = t) && noSplit scanInit t &&
    decide (scanEnd scanInit t = scanInit)

/-! ## `format_case_expression` (source lines 536-580)

`re.sub(r"CASE\b.*?END\b", _case_repl, sql, flags=re.IGNORECASE | re.DOTALL)`
and the regexes inside `_case_repl`, embedded as explicit scanners that
follow the regex engine's backtracking order (greedy `\s+` explored
longest-first, lazy `.+?` shortest-first). -/

/-- Length of the leading whitespace run (what greedy `\s+`/`\s*` takes). -/
def wsRun (s : Str) : Nat := (s.takeWhile (fun c => pyWs c)).length

/-- Try `f lo`, `f (lo+1)`, ... (`n` attempts): ascending backtracking
order of a lazy quantifier. -/
def tryUp (lo : Nat) : Nat → (Nat → Option α) → Option α
  | 0, _ => none
  | n + 1, f =>
    match f lo with
    | some a => some a
    | none => tryUp (lo + 1) n f

/-- Try `f hi`, `f (hi-1)`, ... (`n` attempts): descending backtracking
order of a greedy quantifier. -/
def tryDown : Nat → Nat → (Nat → Option α) → Option α
  | _, 0, _ => none
  | hi, n + 1, f =>
    match f hi with
    | some a => some a
    | none => tryDown (hi - 1) n f

/-- The lookahead `(?=(?:WHEN|ELSE|$))` of the WHEN/THEN findall. -/
def lookWhenElseEnd (v : Str) : Bool :=
  v.isEmpty || beginsCI (S "WHEN") v || beginsCI (S "ELSE") v

/-- `\s+(?P<res>.+?)(?=(?:WHEN|ELSE|$))` after `THEN`: greedy whitespace
(longest first), then the shortest non-empty `res` whose end satisfies the
lookahead.  Returns `(res, rest-after-lookahead-position)`. -/
def resSearch (after : Str) : Option (Str × Str) :=
  let m := wsRun after
  tryDown m m fun r3 =>
    if r3 == 0 then none
    else
      let w := after.drop r3
      tryUp 1 w.length fun d =>
        if lookWhenElseEnd (w.drop d) then some (w.take d, w.drop d) else none

/-- `(?P<cond>.+?)\s+THEN` continuation: shortest `cond` followed by a
whitespace run and `THEN`, then `resSearch`. `u` is the text after
`WHEN\s{w}`. -/
def condSearch (u : Str) : Option (Str × Str × Str) :=
  tryUp 1 u.length fun c =>
    let v := u.drop c
    let r := wsRun v
    if r == 0 then none
    else if beginsCI (S "THEN") (v.drop r) then
      match resSearch (v.drop (r + 4)) with
      | some (res, rest) => some (u.take c, res, rest)
      | none => none
    else none

/-- Attempt the WHEN/THEN pair regex at the start of `s`:
`WHEN\s+(?P<cond>.+?)\s+THEN\s+(?P<res>.+?)(?=(?:WHEN|ELSE|$))`. -/
def matchWhenAt (s : Str) : Option (Str × Str × Str) :=
  if beginsCI (S "WHEN") s then
    let t := s.drop 4
    let m := wsRun t
    tryDown m m fun w => if w == 0 then none else condSearch (t.drop w)
  else none

/-- `re.findall` of the WHEN/THEN pair pattern: scan start positions left
to right, emit each match and continue after it (fuelled recursion; the
fuel `inner.length + 1` always suffices since every step consumes at least
one character). -/
def findWhenPairs : Nat → Str → List (Str × Str)
  | 0, _ => []
  | fuel + 1, s =>
    match s with
    | [] => []
    | _ :: cs =>
      match matchWhenAt s with
      | some (cond, res, rest) => (cond, res) :: findWhenPairs fuel rest
      | none => findWhenPairs fuel cs

/-- `re.search(r"ELSE\s+(?P<else>.+)$", inner)`: leftmost `ELSE` followed
by whitespace and at least one character; the greedy group takes the whole
remainder. -/
def elseSearch : Str → Option Str
  | [] => none
  | c :: cs =>
    if beginsCI (S "ELSE") (c :: cs) then
      let t := (c :: cs).drop 4
      let r := wsRun t
      if r != 0 && !(t.drop r).isEmpty then some (t.drop r) else elseSearch cs
    else elseSearch cs

/-- `re.match(r"(.+?\bIN)\s*\((.+)\)$", cond)`: shortest prefix ending in
a word-boundary `IN`, whitespace, `(`, then a greedy group closed by a
final `)` at the very end. -/
def inMatch (cond : Str) : Option (Str × Str) :=
  tryUp 1 cond.length fun p =>
    match (cond.take p).getLast? with
    | none => none
    | some b =>
      if wordChar b then none
      else
        let rest := cond.drop p
        if beginsCI (S "IN") rest then
          let rest2 := rest.drop 2
          let rest3 := rest2.drop (wsRun rest2)
          match rest3 with
          | '(' :: w =>
            if w.length ≥ 2 && w.getLast? == some ')' then
              some (cond.take (p + 2), w.dropLast)
            else none
          | _ => none
        else none

/-- `re.split(r",(?=(?:[^']*'[^']*')*[^']*$)", s)`: split at a comma iff
the number of single quotes after it is even. -/
def splitCQP : Str → List Str
  | [] => [[]]
  | c :: cs =>
    if c == ',' && (cs.count '\'') % 2 == 0 then [] :: splitCQP cs
    else
      match splitCQP cs with
      | [] => [[c]]
      | p :: ps => (c :: p) :: ps

/-- Append a comma to every element but the last (the
`"," if i < len - 1 else ""` idiom used throughout the source). -/
def addCommas : List Str → List Str
  | [] => []
  | [x] => [x]
  | x :: xs => (x ++ [',']) :: addCommas xs

/-- `_case_repl` (source lines 545-578): rebuild one matched
`CASE ... END` block. -/
def case_repl (block : Str) : Str :=
  let inner := pystrip ((block.drop 4).take (block.length - 7))
  let pairs := findWhenPairs (inner.length + 1) inner
  let em := elseSearch inner
  let pairLines := pairs.flatMap fun pr =>
    let cond := pystrip pr.1
    let res := pystrip pr.2
    match inMatch cond with
    | some (g1, g2) =>
      let items := (splitCQP (pystrip g2)).map pystrip
      (S "    WHEN " ++ pystrip g1 ++ S " (") ::
        (addCommas items).map (fun it => S "        " ++ it) ++
        [S "    ) THEN " ++ res]
    | none => [S "    WHEN " ++ cond ++ S " THEN " ++ res]
  let elseLines :=
    match em with
    | some e => [S "    ELSE " ++ pystrip e]
    | none => []
  joinNL ([S "CASE"] ++ pairLines ++ elseLines ++ [S "END"])

/-- Is the next character a non-word character (or absent)?  Implements
the `\b` after `CASE`/`END` (the preceding character is a word char). -/
def nonWordStart : Str → Bool
  | [] => true
  | c :: _ => !wordChar c

/-- Earliest index of `END` (case-insensitive) with a word boundary after
it — the target of the lazy `.*?END\b`. -/
def caseEndSearch : Str → Option Nat
  | [] => none
  | c :: cs =>
    if beginsCI (S "END") (c :: cs) && nonWordStart ((c :: cs).drop 3) then some 0
    else (caseEndSearch cs).map (· + 1)

/-- Attempt `CASE\b.*?END\b` at the start of `s`; returns the matched
block and the remainder. -/
def caseMatchAt (s : Str) : Option (Str × Str) :=
  if beginsCI (S "CASE") s && nonWordStart (s.drop 4) then
    match caseEndSearch (s.drop 4) with
    | some i => some (s.take (4 + i + 3), s.drop (4 + i + 3))
    | none => none
  else none

/-- Leftmost match of `CASE\b.*?END\b`: `(prefix, block, rest)`. -/
def findCase : Str → Option (Str × Str × Str)
  | [] => none
  | c :: cs =>
    match caseMatchAt (c :: cs) with
    | some (blk, rest) => some ([], blk, rest)
    | none => (findCase cs).map fun r => (c :: r.1, r.2.1, r.2.2)

/-- The `re.sub` loop: replace each non-overlapping match left to right,
resuming after the replaced span (fuelled; every iteration consumes at
least one character of the remainder). -/
def fceAux : Nat → Str → Str
  | 0, s => s
  | fuel + 1, s =>
    match findCase s with
    | none => s
    | some (pre, blk, post) => pre ++ case_repl blk ++ fceAux fuel post

/-- `SQLFormatter.format_case_expression` (lines 536-580). -/
def format_case_expression (s : Str) : Str := fceAux (s.length + 1) s

/-- Does the string contain the keyword `CASE` (case-insensitive)
anywhere?  Used to state the no-op property. -/
def hasCaseCI : Str → Bool
  | [] => false
  | c :: cs => beginsCI (S "CASE") (c :: cs) || hasCaseCI cs

/-! ## `format_insert_values_block` (source lines 98-225) -/

/-- Leftmost-match search: try the matcher at every suffix, left to
right (`re.search` position scanning). -/
def scanFor (f : Str → Option α) : Str → Option α
  | [] => f []
  | c :: cs =>
    match f (c :: cs) with
    | some a => some a
    | none => scanFor f cs

/-- Python `str.split(sep)` for a single-character separator (splits at
every occurrence, keeps empty chunks). -/
def splitAll (sep : Char) : Str → List Str
  | [] => [[]]
  | c :: cs =>
    if c == sep then [] :: splitAll sep cs
    else
      match splitAll sep cs with
      | [] => [[c]]
      | p :: ps => (c :: p) :: ps

/-- Python `max(xs, default=0)`. -/
def maxNat (xs : List Nat) : Nat := xs.foldl Nat.max 0

/-- Match `INSERT\s+INTO\s+([^\s(]+)` anchored at the start of `s`. -/
def insertTableAt (s : Str) : Option Str :=
  if beginsCI (S "INSERT") s then
    let t1 := s.drop 6
    let r1 := wsRun t1
    if r1 == 0 then none
    else
      let t2 := t1.drop r1
      if beginsCI (S "INTO") t2 then
        let t3 := t2.drop 4
        let r2 := wsRun t3
        if r2 == 0 then none
        else
          let tok := (t3.drop r2).takeWhile fun c => !pyWs c && !(c == '(')
          if tok.isEmpty then none else some tok
      else none
  else none

/-- `re.search(r"INSERT\s+INTO\s+([^\s(]+)", sql, re.IGNORECASE)`. -/
def find_insert_table (s : Str) : Option Str := scanFor insertTableAt s

/-- The lazy group of `\((.*?)\)\s*KW`: the earliest `)` followed by
optional whitespace and the keyword; returns the group content. -/
def closeSearch (kw : Str) : Str → Option Str
  | [] => none
  | c :: v =>
    if c == ')' && beginsCI kw (v.drop (wsRun v)) then some []
    else (closeSearch kw v).map (c :: ·)

/-- Match `INSERT\s+INTO\s+[^\s(]+\s*\((.*?)\)\s*KW` anchored at the
start of `s` (used with `KW = VALUES` and `KW = SELECT`). -/
def insertColsAt (kw : Str) (s : Str) : Option Str :=
  if beginsCI (S "INSERT") s then
    let t1 := s.drop 6
    let r1 := wsRun t1
    if r1 == 0 then none
    else
      let t2 := t1.drop r1
      if beginsCI (S "INTO") t2 then
        let t3 := t2.drop 4
        let r2 := wsRun t3
        if r2 == 0 then none
        else
          let t4 := t3.drop r2
          let tok := t4.takeWhile fun c => !pyWs c && !(c == '(')
          if tok.isEmpty then none
          else
            let t5 := t4.drop tok.length
            match t5.drop (wsRun t5) with
            | '(' :: u => closeSearch kw u
            | _ => none
      else none
  else none

/-- `re.search(r"INSERT\s+INTO\s+[^\s(]+\s*\((.*?)\)\s*VALUES", ...)`
(and the `SELECT` variant). -/
def find_insert_cols (kw : Str) (s : Str) : Option Str :=
  scanFor (insertColsAt kw) s

/-- Match `\)\s*VALUES\s*([\s\S]+?);` anchored at the start of `s`: the
greedy `\s*` backtracks longest-first, the lazy group is the shortest
non-empty prefix followed by `;`. -/
def valuesBlockAt (s : Str) : Option Str :=
  match s with
  | ')' :: v =>
    let r := wsRun v
    if beginsCI (S "VALUES") (v.drop r) then
      let u := (v.drop r).drop 6
      let r2 := wsRun u
      tryDown r2 (r2 + 1) fun k =>
        match u.drop k with
        | [] => none
        | c :: w => (w.findIdx? (· == ';')).map fun i => c :: w.take i
    else none
  | _ => none

/-- `re.search(r"\)\s*VALUES\s*([\s\S]+?);", sql, ...)` (source 116-120). -/
def find_values_block (s : Str) : Option Str := scanFor valuesBlockAt s

/-- Suffix following the leftmost `*/`. -/
def findCloseBC : Str → Option Str
  | [] => none
  | c :: cs => if c == '*' && begins (S "/") cs then some (cs.drop 1) else findCloseBC cs

/-- Leftmost `/\*.*?\*/` match: `(prefix, rest-after-match)`. -/
def findBC : Str → Option (Str × Str)
  | [] => none
  | c :: cs =>
    if c == '/' && begins (S "*") cs then
      match findCloseBC (cs.drop 1) with
      | some rest => some ([], rest)
      | none => none
    else (findBC cs).map fun r => (c :: r.1, r.2)

/-- `re.sub(r"/\*.*?\*/", "", s, flags=re.DOTALL)` (fuelled loop; each
iteration consumes at least the four characters of a comment). -/
def removeBlockComments : Nat → Str → Str
  | 0, s => s
  | fuel + 1, s =>
    match findBC s with
    | none => s
    | some (pre, rest) => pre ++ removeBlockComments fuel rest

/-- Leftmost `\)\s*,\s*\(` row delimiter: returns the segment up to and
including the `)` and the rest starting at the `(`. -/
def findRowDelim : Str → Option (Str × Str)
  | [] => none
  | c :: cs =>
    if c == ')' then
      match (cs.drop (wsRun cs)) with
      | ',' :: v =>
        match v.drop (wsRun v) with
        | '(' :: w => some ([')'], '(' :: w)
        | _ => (findRowDelim cs).map fun p => (c :: p.1, p.2)
      | _ => (findRowDelim cs).map fun p => (c :: p.1, p.2)
    else (findRowDelim cs).map fun p => (c :: p.1, p.2)

/-- The row splitting of source lines 136-142 (`re.sub` of
`\)\s*,\s*\(` to a temp delimiter, then `split`): fuelled, each step
consumes at least two characters. -/
def split_value_rows : Nat → Str → List Str
  | 0, s => [s]
  | fuel + 1, s =>
    match findRowDelim s with
    | none => [s]
    | some (p, rest) => p :: split_value_rows fuel rest

/-- Source lines 152-154: row-parse failure message. -/
def rowParseErr : Str :=
  S "❌ Error parsing rows in VALUES. Ensure rows are correctly parenthesized " ++
    S "and separated by commas (e.g., VALUES (r1v1, r1v2), (r2v1, r2v2))."

/-- The per-part loop of source lines 144-154: strip each part, keep the
content of `( ... )` parts, skip blank parts, fail otherwise. -/
def parse_rows : List Str → Except Str (List Str)
  | [] => .ok []
  | part :: rest =>
    let strippedPart := pystrip part
    if strippedPart.head? == some '(' && strippedPart.getLast? == some ')' then
      (parse_rows rest).map fun rs =>
        pystrip ((strippedPart.drop 1).take (strippedPart.length - 2)) :: rs
    else if strippedPart.isEmpty then parse_rows rest
    else .error rowParseErr

/-- `re.sub(r"\s*\n\s*", " ", s)`: every maximal whitespace run that
contains a newline collapses to a single space (fuelled scan). -/
def normNewlines : Nat → Str → Str
  | 0, s => s
  | fuel + 1, s =>
    match s with
    | [] => []
    | c :: cs =>
      let r := wsRun (c :: cs)
      if r != 0 && ((c :: cs).take r).contains '\n' then
        ' ' :: normNewlines fuel ((c :: cs).drop r)
      else c :: normNewlines fuel cs

/-- Source lines 187-190: empty-values mismatch diagnostic. -/
def mismatch_empty_diag (table : Str) (cols : List Str) (rowIdx : Nat) : Str :=
  S "❌ Mismatch in row " ++ natToStr (rowIdx + 1) ++ S " for table '" ++ table ++
    S "': Values are empty, but " ++ natToStr cols.length ++
    S " columns are defined: " ++ joinWith (S ", ") cols ++ S "."

/-- Source lines 192-197: count mismatch diagnostic. -/
def mismatch_count_diag (table : Str) (cols vals : List Str) (rowIdx : Nat) : Str :=
  S "❌ Mismatch in row " ++ natToStr (rowIdx + 1) ++ S " for table '" ++ table ++
    S "':\n    Expected " ++ natToStr cols.length ++ S " values for columns: " ++
    joinWith (S ", ") cols ++ S "\n    But found " ++ natToStr vals.length ++
    S " values: " ++ joinWith (S ", ") vals

/-- The value lines of one well-formed row (source lines 204-218):
commas appended to all but the last value, padding to a per-row common
comment column, `-- colname` comments. -/
def row_value_lines (cols vals : List Str) : List Str :=
  let valComma := addCommas vals
  let maxLen := maxNat (valComma.map List.length)
  (valComma.zip cols).map fun vc =>
    let pad0 := maxLen - vc.1.length
    let pad := if !(vc.1.getLast? == some ',') then pad0 + 1 else pad0
    S "        " ++ vc.1 ++ List.replicate (pad + 1) ' ' ++ dd ++ [' '] ++ vc.2

/-- Source line 176-177: a row's tokens — the row content is stripped,
inner newlines are collapsed, and the result smart-split. -/
def row_tokens (row : Str) : List Str :=
  smart_split_csv (normNewlines (row.length + 1) (pystrip row))

/-- The row loop of source lines 175-221: each row is normalised,
smart-split, validated against the column count (returning the row's
diagnostic on the first mismatch) and rendered. -/
def values_row_lines (cols : List Str) (table : Str) :
    List Str → Nat → Except Str (List Str)
  | [], _ => .ok []
  | row :: rest, idx =>
    let vals := row_tokens row
    if vals.isEmpty && cols.isEmpty then
      (values_row_lines cols table rest (idx + 1)).map fun ls =>
        (if idx == 0 then S "    (" else S "    ,(") :: S "    )" :: ls
    else if vals.isEmpty then .error (mismatch_empty_diag table cols idx)
    else if cols.length != vals.length then
      .error (mismatch_count_diag table cols vals idx)
    else
      (values_row_lines cols table rest (idx + 1)).map fun ls =>
        ((if idx == 0 then S "    (" else S "    ,(") ::
          row_value_lines cols vals ++ [S "    )"]) ++ ls

/-- Append `;` to the last line unless it already ends with one
(source lines 222-223). -/
def appendSemiLast : List Str → List Str
  | [] => []
  | [x] => [if x.getLast? == some ';' then x else x ++ [';']]
  | x :: xs => x :: appendSemiLast xs

/-- Source line 129: the column list from the columns group. -/
def insert_cols_of (colsStr : Str) : List Str := (splitAll ',' colsStr).map pystrip

/-- Source lines 131-154 combined: strip the raw VALUES group, remove
block comments, split into rows and parse each row's parentheses. -/
def insert_rows_of (valuesRaw : Str) : Except Str (List Str) :=
  let valuesContent :=
    removeBlockComments (pystrip valuesRaw).length (pystrip valuesRaw)
  parse_rows (split_value_rows valuesContent.length valuesContent)

/-- `SQLFormatter.format_insert_values_block` (lines 98-225). -/
def format_insert_values_block (sql : Str) : Str :=
  match find_insert_cols (S "VALUES") sql with
  | none => S "❌ Invalid INSERT statement structure (columns not found)."
  | some colsStr =>
    match find_values_block sql with
    | none => S "❌ VALUES clause not found."
    | some valuesRaw =>
      match find_insert_table sql with
      | none =>
        S "❌ Invalid INSERT statement structure. Could not identify table, columns, or VALUES clause."
      | some table =>
        let cols := insert_cols_of colsStr
        let valuesContent :=
          removeBlockComments (pystrip valuesRaw).length (pystrip valuesRaw)
        match insert_rows_of valuesRaw with
        | .error e => e
        | .ok rows =>
          if rows.isEmpty then
            if valuesContent = S "()" then
              if cols.isEmpty then S "INSERT INTO " ++ table ++ S "\nVALUES ();"
              else
                S "❌ Mismatch for table '" ++ table ++ S "': " ++
                  natToStr cols.length ++ S " columns (" ++ joinWith (S ", ") cols ++
                  S ") defined, but VALUES clause is empty '()'."
            else
              S "❌ No value rows found in VALUES clause for table '" ++ table ++ S "'."
          else
            match values_row_lines cols table rows 0 with
            | .error diag => diag
            | .ok rowLines =>
              joinNL (appendSemiLast
                ((S "INSERT INTO " ++ table ++ S " (") ::
                  ((addCommas cols).map fun c => S "    " ++ c) ++
                  [S ") VALUES"] ++ rowLines))

/-! ## Shared whitespace utilities (source lines 40-48) -/

/-- `re.sub(r"\s+", " ", t)`: collapse every whitespace run to one space
(fuelled scan; each step consumes at least one character). -/
def subWsRuns : Nat → Str → Str
  | 0, s => s
  | fuel + 1, s =>
    match s with
    | [] => []
    | c :: cs =>
      if pyWs c then ' ' :: subWsRuns fuel ((c :: cs).drop (wsRun (c :: cs)))
      else c :: subWsRuns fuel cs

/-- `SQLFormatter._collapse_whitespace` (lines 40-43). -/
def collapse_whitespace (t : Str) : Str := pystrip (subWsRuns t.length t)

/-- `SQLFormatter._trim_semicolon` (lines 45-48). -/
def trim_semicolon (t : Str) : Str := rstripSemi (pystrip t)

/-- `SQLFormatter.format_simple_single_line` (lines 526-534). -/
def format_simple_single_line (sql : Str) : Str :=
  subWsRuns (pystrip sql).length (pystrip sql)

/-- Python `str.splitlines()` (boundaries `\n`, `\r`, `\r\n`, `\v`, `\f`;
fuelled scan). -/
def splitlinesNL : Nat → Str → List Str
  | 0, s => [s]
  | fuel + 1, s =>
    match s with
    | [] => []
    | _ :: _ =>
      let line := s.takeWhile fun c =>
        !(c == '\n' || c == '\r' || c == '\x0b' || c == '\x0c')
      match s.drop line.length with
      | [] => [line]
      | '\r' :: '\n' :: tail => line :: splitlinesNL fuel tail
      | _ :: tail => line :: splitlinesNL fuel tail

/-- Python `str.splitlines()`. -/
def splitlines (s : Str) : List Str := splitlinesNL (s.length + 1) s

/-- Modelled Python exceptions. -/
inductive PyErr where
  | indexError
  | valueError
deriving DecidableEq, Repr

/-! ## `format_update_block` (source lines 345-392) -/

/-- The optional tail `(?:\s+WHERE\s+(.*?))?;` of the UPDATE header
regex, tried at assignment-group end positions in ascending (lazy) order;
at each position the WHERE branch is preferred over the bare `;`. -/
def updAssignSearch (u : Str) : Option (Str × Option Str) :=
  tryUp 0 (u.length + 1) fun a =>
    let v := u.drop a
    let rw := wsRun v
    let whereBranch : Option (Str × Option Str) :=
      if rw != 0 && beginsCI (S "WHERE") (v.drop rw) then
        let v2 := (v.drop rw).drop 5
        let rw2 := wsRun v2
        if rw2 == 0 then none
        else
          let w := v2.drop rw2
          (w.findIdx? (· == ';')).map fun i => (u.take a, some (w.take i))
      else none
    match whereBranch with
    | some res => some res
    | none => if v.head? == some ';' then some (u.take a, none) else none

/-- `re.match(r"UPDATE\s+([^\s]+)\s+SET\s+(.*?)(?:\s+WHERE\s+(.*?))?;", joined)`
(source lines 354-358): returns `(table, assignments, where?)`. -/
def updateHeaderMatch (j : Str) : Option (Str × Str × Option Str) :=
  if beginsCI (S "UPDATE") j then
    let t1 := j.drop 6
    let r1 := wsRun t1
    if r1 == 0 then none
    else
      let t2 := t1.drop r1
      let table := t2.takeWhile fun c => !pyWs c
      if table.isEmpty then none
      else
        let t3 := t2.drop table.length
        let r2 := wsRun t3
        if r2 == 0 then none
        else if beginsCI (S "SET") (t3.drop r2) then
          let t4 := (t3.drop r2).drop 3
          let r3 := wsRun t4
          if r3 == 0 then none
          else
            (updAssignSearch (t4.drop r3)).map fun p => (table, p.1, p.2)
        else none
  else none

/-- One assignment of the UPDATE SET list (loop of source lines 371-383):
the CASE-expanded part is re-indented; an empty part makes `lines[0]`
raise `IndexError`. -/
def updPartsLoop : List Str → Except PyErr (List Str)
  | [] => .ok []
  | p :: rest =>
    let comma : Str := if rest.isEmpty then [] else [',']
    let lines := splitlines (format_case_expression p)
    match lines with
    | [] => .error .indexError
    | [l] => (updPartsLoop rest).map fun ls => (S "    " ++ l ++ comma) :: ls
    | l0 :: l1 :: lrest =>
      let mids := (l1 :: lrest).dropLast
      let lastL := (l1 :: lrest).getLast (by simp)
      (updPartsLoop rest).map fun ls =>
        ((S "    " ++ l0) :: mids.map (fun l => S "      " ++ l) ++
          [S "      " ++ lastL ++ comma]) ++ ls

/-- `re.sub(r"\n;$", ";", result)` (source line 391). -/
def dropNLBeforeFinalSemi (r : Str) : Str :=
  match r.reverse with
  | ';' :: '\n' :: rest => rest.reverse ++ [';']
  | _ => r

/-- `SQLFormatter.format_update_block` (lines 345-392); `Except` models
the `IndexError` reachable through an empty assignment part. -/
def format_update_block (sql : Str) : Except PyErr Str :=
  let joined := collapse_whitespace sql
  match updateHeaderMatch joined with
  | none => .ok (pystrip sql)
  | some (table, assigns0, whereOpt) =>
    let assigns := pystrip assigns0
    let whereClause : Option Str :=
      match whereOpt with
      | some w => if w.isEmpty then none else some (pystrip w)
      | none => none
    let parts := (splitCQP assigns).map pystrip
    (updPartsLoop parts).map fun partLines =>
      let tail : Str :=
        match whereClause with
        | some w => S "WHERE " ++ w ++ S ";"
        | none => S ";"
      dropNLBeforeFinalSemi
        (joinNL ((S "UPDATE " ++ table) :: S "  SET" :: partLines ++ [tail]))

/-! ## `format_set_block` (source lines 402-431) -/

/-- Does the remainder match `;?\s*$`? -/
def tailSemiWs (v : Str) : Bool :=
  match v with
  | ';' :: rest => rest.all fun c => pyWs c
  | _ => v.all fun c => pyWs c

/-- `\s*(.+?);?\s*$`: greedy whitespace longest-first, then the shortest
non-empty group whose remainder is an optional `;` plus whitespace. -/
def rhsSearch (w : Str) : Option Str :=
  let r3 := wsRun w
  tryDown r3 (r3 + 1) fun k =>
    let u := w.drop k
    tryUp 1 u.length fun d => if tailSemiWs (u.drop d) then some (u.take d) else none

/-- `re.match(r"^\s*SET\s+(@?[A-Z0-9_]+)\s*([:=]{1,2})\s*(.+?);?\s*$", line, re.I)`
(source lines 412-415): returns `(lhs, op, raw rhs group)`. -/
def set_line_match (line : Str) : Option (Str × Str × Str) :=
  let t := line.drop (wsRun line)
  if beginsCI (S "SET") t then
    let t1 := t.drop 3
    let r := wsRun t1
    if r == 0 then none
    else
      let t2 := t1.drop r
      let (atPart, t3) : Str × Str :=
        if t2.head? == some '@' then (['@'], t2.drop 1) else ([], t2)
      let tok := t3.takeWhile wordChar
      if tok.isEmpty then none
      else
        let lhs := atPart ++ tok
        let t4 := (t3.drop tok.length)
        let t5 := t4.drop (wsRun t4)
        let isOpChar : Char → Bool := fun c => c == ':' || c == '='
        match t5 with
        | c1 :: c2 :: rest =>
          if isOpChar c1 then
            if isOpChar c2 then
              match rhsSearch rest with
              | some g => some (lhs, [c1, c2], g)
              | none =>
                (rhsSearch (c2 :: rest)).map fun g => (lhs, [c1], g)
            else (rhsSearch (c2 :: rest)).map fun g => (lhs, [c1], g)
          else none
        | [c1] => if isOpChar c1 then none else none
        | [] => none
  else none

/-- Python `str.ljust(width)`. -/
def ljust (s : Str) (width : Nat) : Str := s ++ List.replicate (width - s.length) ' '

/-- `SQLFormatter.format_set_block` (lines 402-431); `Except` models the
`ValueError` from `max()` on an empty sequence when the line list is
empty. -/
def format_set_block (sql : Str) : Except PyErr Str :=
  let lines := splitlines (pystrip sql)
  if !(lines.all fun l => (set_line_match l).isSome) then .ok sql
  else
    let triples := (lines.filterMap set_line_match).map fun t =>
      (t.1, t.2.1, rstripSemi (pystrip t.2.2))
    if triples.any (fun t => t.2.2.head? == some '\x7b' || t.2.2.head? == some '[')
    then .ok sql
    else
      match triples with
      | [] => .error .valueError
      | _ :: _ =>
        let maxLhs := maxNat (triples.map fun t => t.1.length)
        .ok (joinNL (triples.map fun t =>
          S "SET " ++ ljust t.1 maxLhs ++ [' '] ++ t.2.1 ++ [' '] ++ t.2.2 ++ [';']))

/-! ## `format_create_table` / `format_alter_table` (source lines 285-343) -/

/-- The lookahead `[^(]*\)` (equivalently `[^()]*\)`): the first
parenthesis reachable without crossing `(` is a `)`. -/
def parenLookahead (cs : Str) : Bool :=
  match cs.dropWhile (fun c => !(c == '(' || c == ')')) with
  | ')' :: _ => true
  | _ => false

/-- `re.split(r",(?![^(]*\))", s)` (also used for `[^()]*`, which denotes
the same split points). -/
def splitParenHeur : Str → List Str
  | [] => [[]]
  | c :: cs =>
    if c == ',' && !parenLookahead cs then [] :: splitParenHeur cs
    else
      match splitParenHeur cs with
      | [] => [[c]]
      | p :: ps => (c :: p) :: ps

/-- `re.match(r"(CREATE\s+TABLE\s+[^\(]+)\s*\((.*)\)\s*", stripped)`
(source lines 294-298): header group up to the first `(`, body up to the
last `)`. -/
def createTableMatch (s : Str) : Option (Str × Str) :=
  if beginsCI (S "CREATE") s then
    let t1 := s.drop 6
    let r1 := wsRun t1
    if r1 == 0 then none
    else if beginsCI (S "TABLE") (t1.drop r1) then
      let t3 := (t1.drop r1).drop 5
      let pre := t3.takeWhile fun c => !(c == '(')
      if wsRun t3 == 0 || pre.length < 2 then none
      else
        match t3.drop pre.length with
        | '(' :: u =>
          match u.reverse.findIdx? (· == ')') with
          | some k => some (s.take (6 + r1 + 5 + pre.length), u.take (u.length - 1 - k))
          | none => none
        | _ => none
    else none
  else none

/-- `SQLFormatter.format_create_table` (lines 285-314). -/
def format_create_table (sql : Str) : Str :=
  let stripped := trim_semicolon sql
  match createTableMatch stripped with
  | none => pystrip sql
  | some (header0, body0) =>
    let header := pystrip header0
    let cols := (splitParenHeur (pystrip body0)).map pystrip
    if cols.length == 1 then subWsRuns (pystrip sql).length (pystrip sql) ++ [';']
    else
      joinNL ((header ++ S " (") ::
        (addCommas cols).map (fun c => S "    " ++ c) ++ [S ");"])

/-- `re.match(r"(ALTER\s+TABLE\s+[^\s]+)\s+(.*)", stripped)` (source
line 326). -/
def alterTableMatch (s : Str) : Option (Str × Str) :=
  if beginsCI (S "ALTER") s then
    let t1 := s.drop 5
    let r1 := wsRun t1
    if r1 == 0 then none
    else if beginsCI (S "TABLE") (t1.drop r1) then
      let t3 := (t1.drop r1).drop 5
      let r2 := wsRun t3
      if r2 == 0 then none
      else
        let name := (t3.drop r2).takeWhile fun c => !pyWs c
        if name.isEmpty then none
        else
          let t4 := (t3.drop r2).drop name.length
          let r3 := wsRun t4
          if r3 == 0 then none
          else some (s.take (5 + r1 + 5 + r2 + name.length), t4.drop r3)
    else none
  else none

/-- `SQLFormatter.format_alter_table` (lines 316-343): one action
collapses to a single line ending in `" ;"`, several actions go one per
indented line. -/
def format_alter_table (sql : Str) : Str :=
  let stripped := trim_semicolon sql
  match alterTableMatch stripped with
  | none => pystrip sql
  | some (header0, rest0) =>
    let header := pystrip header0
    let actions := (splitParenHeur (pystrip rest0)).map pystrip
    if actions.length == 1 then collapse_whitespace stripped ++ S " ;"
    else
      joinNL (header :: (addCommas actions).map (fun a => S "    " ++ a) ++ [S ";"])

/-! ## `format_delete_block` (source lines 496-524) -/

/-- `re.match(r"DELETE\s+FROM\s+([^\s;]+)", sql, re.I)` (source line 505). -/
def deleteTableMatch (s : Str) : Option Str :=
  if beginsCI (S "DELETE") s then
    let t1 := s.drop 6
    let r1 := wsRun t1
    if r1 == 0 then none
    else if beginsCI (S "FROM") (t1.drop r1) then
      let t3 := (t1.drop r1).drop 4
      let r2 := wsRun t3
      if r2 == 0 then none
      else
        let tok := (t3.drop r2).takeWhile fun c => !pyWs c && !(c == ';')
        if tok.isEmpty then none else some tok
    else none
  else none

/-- `re.split(r"\bWHERE\b", sql, maxsplit=1, flags=re.I)`: leftmost
`WHERE` with word boundaries on both sides; returns the part after it.
`prevWord` carries whether the previous character was a word character. -/
def findWhere (prevWord : Bool) : Str → Option Str
  | [] => none
  | c :: cs =>
    if !prevWord && beginsCI (S "WHERE") (c :: cs) &&
        nonWordStart ((c :: cs).drop 5) then
      some ((c :: cs).drop 5)
    else findWhere (wordChar c) cs

/-- Leftmost `\s+AND\s+` (case-insensitive): `(before, after)`. -/
def findAND : Str → Option (Str × Str)
  | [] => none
  | c :: cs =>
    if pyWs c then
      let r := wsRun (c :: cs)
      let v := (c :: cs).drop r
      if beginsCI (S "AND") v then
        let v2 := v.drop 3
        let r2 := wsRun v2
        if r2 != 0 then some ([], v2.drop r2)
        else (findAND cs).map fun p => (c :: p.1, p.2)
      else (findAND cs).map fun p => (c :: p.1, p.2)
    else (findAND cs).map fun p => (c :: p.1, p.2)

/-- `re.split(r"\s+AND\s+", s, flags=re.I)` (fuelled). -/
def splitANDs : Nat → Str → List Str
  | 0, s => [s]
  | fuel + 1, s =>
    match findAND s with
    | none => [s]
    | some (before, after) => before :: splitANDs fuel after

/-- Render the conditions (loop of source lines 518-522). -/
def deleteCondLines : List Str → Nat → List Str
  | [], _ => []
  | c :: rest, i =>
    (if i == 0 then S "    " ++ pystrip c else S "    AND " ++ pystrip c) ::
      deleteCondLines rest (i + 1)

/-- `SQLFormatter.format_delete_block` (lines 496-524). -/
def format_delete_block (sql : Str) : Str :=
  match deleteTableMatch sql with
  | none => pystrip sql
  | some table =>
    match findWhere false sql with
    | none => pystrip sql
    | some afterWhere =>
      let conds := splitANDs afterWhere.length (rstripSemi afterWhere)
      joinNL ((S "DELETE FROM " ++ table) :: S "WHERE" ::
        deleteCondLines conds 0) ++ [';']

/-! ## `format_insert_select_block` (source lines 227-269) -/

/-- `re.search(r"SELECT\s+(.*?)\s+FROM\s", sql, re.DOTALL | re.I)`
attempted at the start of `s`: lazy projection group up to a whitespace
run followed by `FROM` and one whitespace character. -/
def selectGroupAt (s : Str) : Option Str :=
  if beginsCI (S "SELECT") s then
    let t1 := s.drop 6
    let r1 := wsRun t1
    if r1 == 0 then none
    else
      let u := t1.drop r1
      tryUp 1 u.length fun d =>
        let v := u.drop d
        let rv := wsRun v
        if rv != 0 && beginsCI (S "FROM") (v.drop rv) &&
            (match ((v.drop rv).drop 4).head? with
             | some c => pyWs c
             | none => false) then
          some (u.take d)
        else none
  else none

/-- The `SELECT` projection-list search of source line 240. -/
def find_select_group (s : Str) : Option Str := scanFor selectGroupAt s

/-- Index of the first occurrence of `FROM` in `sql.upper()`
(`sql.upper().find("FROM")`, source line 267). -/
def upperFindFROM : Str → Option Nat
  | [] => none
  | c :: cs =>
    if begins (S "FROM") (upper (c :: cs)) then some 0
    else (upperFindFROM cs).map (· + 1)

/-- `SQLFormatter.format_insert_select_block` (lines 227-269). -/
def format_insert_select_block (sql : Str) : Str :=
  match find_insert_table sql, find_insert_cols (S "SELECT") sql,
      find_select_group sql with
  | some table, some colsStr, some selStr =>
    let cols := (splitAll ',' colsStr).map pystrip
    let selects := (splitParenHeur selStr).map pystrip
    if cols.length != selects.length then
      S "❌ Column/select count mismatch (" ++ natToStr cols.length ++
        S " vs " ++ natToStr selects.length ++ S ")."
    else
      let selComma := addCommas selects
      let maxLen := maxNat (selComma.map List.length)
      let rest :=
        match upperFindFROM sql with
        | some i => sql.drop i
        | none => []
      joinNL ((S "INSERT INTO " ++ table ++ S " (") ::
        (addCommas cols).map (fun c => S "    " ++ c) ++
        [S ") SELECT"] ++
        ((selComma.zip cols).map fun sc =>
          S "    " ++ ljust sc.1 maxLen ++ S "  " ++ dd ++ [' '] ++ sc.2) ++
        [pystrip rest])
  | _, _, _ => S "❌ Invalid format. Expecting INSERT INTO <table>(...) SELECT ..."

/-! ## `_format_embedded_json` (source lines 433-483)

`json.loads` / `json.dumps(·, indent=4)` are modelled on the JSON
fragment without floating-point numbers (integers, strings without
surrogate pairs, booleans, null, arrays, objects).  The verified claims
evaluate these only on inputs inside that fragment. -/

/-- JSON values (no floats; object member order preserved as parsed). -/
inductive JVal where
  | null
  | bool (b : Bool)
  | num (n : Int)
  | str (s : Str)
  | arr (xs : List JVal)
  | obj (kvs : List (Str × JVal))

/-- JSON whitespace (`json.loads` skips only space, tab, newline, CR). -/
def jskip (s : Str) : Str :=
  s.dropWhile fun c => c == ' ' || c == '\t' || c == '\n' || c == '\r'

/-- Four hex digits of a `\uXXXX` escape. -/
def hexVal (c : Char) : Option Nat :=
  if '0' ≤ c && c ≤ '9' then some (c.toNat - 48)
  else if 'a' ≤ c && c ≤ 'f' then some (c.toNat - 87)
  else if 'A' ≤ c && c ≤ 'F' then some (c.toNat - 55)
  else none

/-- JSON string body after the opening quote (escape handling of
`json.loads`; lone surrogates are not modelled). -/
def jparseStrBody : Nat → Str → Option (Str × Str)
  | 0, _ => none
  | fuel + 1, s =>
    match s with
    | [] => none
    | '"' :: rest => some ([], rest)
    | '\\' :: e :: rest =>
      match e with
      | '"' => (jparseStrBody fuel rest).map fun p => ('"' :: p.1, p.2)
      | '\\' => (jparseStrBody fuel rest).map fun p => ('\\' :: p.1, p.2)
      | '/' => (jparseStrBody fuel rest).map fun p => ('/' :: p.1, p.2)
      | 'b' => (jparseStrBody fuel rest).map fun p => ('\x08' :: p.1, p.2)
      | 'f' => (jparseStrBody fuel rest).map fun p => ('\x0c' :: p.1, p.2)
      | 'n' => (jparseStrBody fuel rest).map fun p => ('\n' :: p.1, p.2)
      | 'r' => (jparseStrBody fuel rest).map fun p => ('\r' :: p.1, p.2)
      | 't' => (jparseStrBody fuel rest).map fun p => ('\t' :: p.1, p.2)
      | 'u' =>
        match rest with
        | h1 :: h2 :: h3 :: h4 :: rest2 =>
          match hexVal h1, hexVal h2, hexVal h3, hexVal h4 with
          | some a, some b, some c, some d =>
            let n := ((a * 16 + b) * 16 + c) * 16 + d
            if n < 0xd800 || 0xe000 ≤ n then
              (jparseStrBody fuel rest2).map fun p => (Char.ofNat n :: p.1, p.2)
            else none
          | _, _, _, _ => none
        | _ => none
      | _ => none
    | c :: rest =>
      if c.toNat < 0x20 then none
      else (jparseStrBody fuel rest).map fun p => (c :: p.1, p.2)

/-- JSON integer: `-? (0 | [1-9][0-9]*)`, rejected when followed by
`.`/`e`/`E` (floats are outside the model). -/
def jparseInt (s : Str) : Option (Int × Str) :=
  let (neg, t) : Bool × Str := if s.head? == some '-' then (true, s.drop 1) else (false, s)
  let digits := t.takeWhile fun c => c.isDigit
  if digits.isEmpty then none
  else if digits.length > 1 && digits.head? == some '0' then none
  else
    let rest := t.drop digits.length
    match rest.head? with
    | some '.' => none
    | some 'e' => none
    | some 'E' => none
    | _ =>
      let n : Nat := digits.foldl (fun acc c => acc * 10 + (c.toNat - 48)) 0
      some (if neg then -(n : Int) else (n : Int), rest)

/-- Python dict construction for object members: the first occurrence of
a key keeps its position, the last occurrence keeps its value (applied at
every object construction, mirroring `json.loads` building a `dict`). -/
def dedupKeys : List (Str × JVal) → List (Str × JVal)
  | [] => []
  | (k, v) :: rest =>
    let v' := ((dedupKeys rest).find? (fun kv => kv.1 == k)).elim v Prod.snd
    (k, v') :: (dedupKeys rest).filter fun kv => !(kv.1 == k)

/-- Recursive-descent `json.loads` value parser (fuelled). -/
def jparseVal : Nat → Str → Option (JVal × Str)
  | 0, _ => none
  | fuel + 1, s0 =>
    let s := jskip s0
    match s with
    | '\x7b' :: rest =>
      let rest1 := jskip rest
      if rest1.head? == some '\x7d' then some (.obj [], rest1.drop 1)
      else
        let mems := jparseMembers fuel rest
        mems.map fun p => (.obj (dedupKeys p.1), p.2)
    | '[' :: rest =>
      let rest1 := jskip rest
      if rest1.head? == some ']' then some (.arr [], rest1.drop 1)
      else (jparseElems fuel rest).map fun p => (.arr p.1, p.2)
    | '"' :: rest => (jparseStrBody (rest.length + 1) rest).map fun p => (.str p.1, p.2)
    | 't' :: _ => if begins (S "true") s then some (.bool true, s.drop 4) else none
    | 'f' :: _ => if begins (S "false") s then some (.bool false, s.drop 5) else none
    | 'n' :: _ => if begins (S "null") s then some (.null, s.drop 4) else none
    | _ => (jparseInt s).map fun p => (.num p.1, p.2)
where
  /-- `"key": value (, "key": value)*` member list. -/
  jparseMembers : Nat → Str → Option (List (Str × JVal) × Str)
    | 0, _ => none
    | fuel + 1, s =>
      match jskip s with
      | '"' :: rest =>
        match jparseStrBody (rest.length + 1) rest with
        | none => none
        | some (key, rest2) =>
          match jskip rest2 with
          | ':' :: rest3 =>
            match jparseVal fuel rest3 with
            | none => none
            | some (v, rest4) =>
              match jskip rest4 with
              | ',' :: rest5 =>
                (jparseMembers fuel rest5).map fun p => ((key, v) :: p.1, p.2)
              | '\x7d' :: rest5 => some ([(key, v)], rest5)
              | _ => none
          | _ => none
      | _ => none
  /-- `value (, value)*` element list. -/
  jparseElems : Nat → Str → Option (List JVal × Str)
    | 0, _ => none
    | fuel + 1, s =>
      match jparseVal fuel s with
      | none => none
      | some (v, rest) =>
        match jskip rest with
        | ',' :: rest2 => (jparseElems fuel rest2).map fun p => (v :: p.1, p.2)
        | ']' :: rest2 => some ([v], rest2)
        | _ => none

/-- `json.loads` on a whole string (must consume everything). -/
def jloads (s : Str) : Option JVal :=
  match jparseVal (s.length + 1) s with
  | some (v, rest) => if (jskip rest).isEmpty then some v else none
  | none => none

/-- Hex digit for `\uXXXX` output. -/
def hexChar (n : Nat) : Char := if n < 10 then digitChar n else Char.ofNat (87 + n)

/-- `json.dumps` string escaping with `ensure_ascii=True`. -/
def jsonEscapeChar (c : Char) : Str :=
  if c == '"' then ['\\', '"']
  else if c == '\\' then ['\\', '\\']
  else if c == '\n' then ['\\', 'n']
  else if c == '\r' then ['\\', 'r']
  else if c == '\t' then ['\\', 't']
  else if c == '\x08' then ['\\', 'b']
  else if c == '\x0c' then ['\\', 'f']
  else if c.toNat < 0x20 || c.toNat > 0x7e then
    ['\\', 'u', hexChar (c.toNat / 4096 % 16), hexChar (c.toNat / 256 % 16),
      hexChar (c.toNat / 16 % 16), hexChar (c.toNat % 16)]
  else [c]

/-- Serialised JSON string literal. -/
def jsonQuote (s : Str) : Str := '"' :: s.flatMap jsonEscapeChar ++ ['"']

/-- Python `str(n)` for integers. -/
def intToStr (n : Int) : Str :=
  if n < 0 then '-' :: natToStr n.natAbs else natToStr n.natAbs

mutual

/-- `json.dumps(v, indent=4)` at nesting level `lvl` (with an indent the
item separator is `","` + newline and the key separator is `": "`). -/
def jdump : JVal → Nat → Str
  | .null, _ => S "null"
  | .bool true, _ => S "true"
  | .bool false, _ => S "false"
  | .num n, _ => intToStr n
  | .str s, _ => jsonQuote s
  | .arr [], _ => S "[]"
  | .arr (x :: xs), lvl =>
    ['[', '\n'] ++ joinWith [',', '\n'] (jdumpList (x :: xs) (lvl + 1)) ++
      ['\n'] ++ List.replicate (4 * lvl) ' ' ++ [']']
  | .obj [], _ => ['\x7b', '\x7d']
  | .obj (kv :: kvs), lvl =>
    ['\x7b', '\n'] ++ joinWith [',', '\n'] (jdumpObj (kv :: kvs) (lvl + 1)) ++
      ['\n'] ++ List.replicate (4 * lvl) ' ' ++ ['\x7d']

/-- Array elements, each on its own indented line. -/
def jdumpList : List JVal → Nat → List Str
  | [], _ => []
  | x :: xs, lvl =>
    (List.replicate (4 * lvl) ' ' ++ jdump x lvl) :: jdumpList xs lvl

/-- Object members, each on its own indented line as `"key": value`. -/
def jdumpObj : List (Str × JVal) → Nat → List Str
  | [], _ => []
  | (k, v) :: xs, lvl =>
    (List.replicate (4 * lvl) ' ' ++ jsonQuote k ++ [':', ' '] ++ jdump v lvl) ::
      jdumpObj xs lvl

end

/-- `pattern = re.compile(r"(=)\s*'({)", re.IGNORECASE)` search: leftmost
`=`, followed by the greedy whitespace run, `'`, `{`; returns the text
before the `{` (the match prefix) and the suffix starting at the `{`. -/
def fejFind : Str → Option (Str × Str)
  | [] => none
  | c :: cs =>
    if c == '=' && (cs.drop (wsRun cs)).head? == some '\'' &&
        ((cs.drop (wsRun cs)).drop 1).head? == some '\x7b' then
      some (c :: (cs.take (wsRun cs) ++ ['\'']), (cs.drop (wsRun cs)).drop 1)
    else (fejFind cs).map fun p => (c :: p.1, p.2)

/-- `find_balanced_json` (source lines 443-462): index of the `}` closing
the first `{`, tracking strings and escapes; the level is an integer as in
the source. -/
def find_balanced_json : Str → Nat → Bool → Bool → Int → Option Nat
  | [], _, _, _, _ => none
  | c :: cs, i, instr, esc, lvl =>
    if c == '\\' && !esc then find_balanced_json cs (i + 1) instr true lvl
    else if c == '"' && !esc then find_balanced_json cs (i + 1) (!instr) false lvl
    else if !instr && c == '\x7b' then find_balanced_json cs (i + 1) instr false (lvl + 1)
    else if !instr && c == '\x7d' then
      if lvl - 1 == 0 then some i
      else find_balanced_json cs (i + 1) instr false (lvl - 1)
    else find_balanced_json cs (i + 1) instr false lvl

/-- The `while True` replacement loop of `_format_embedded_json`
(fuelled; every iteration consumes at least one character of `rest`). -/
def fejLoop : Nat → Str → Str → Str
  | 0, done, rest => done ++ rest
  | fuel + 1, done, rest =>
    match fejFind rest with
    | none => done ++ rest
    | some (pre, fromBrace) =>
      match find_balanced_json fromBrace 0 false false 0 with
      | none => done ++ rest
      | some endIdx =>
        let jsonStr := fromBrace.take (endIdx + 1)
        match jloads jsonStr with
        | some v =>
          fejLoop fuel (done ++ pre ++ jdump v 0) (fromBrace.drop (endIdx + 1))
        | none => fejLoop fuel (done ++ pre ++ jsonStr) (fromBrace.drop (endIdx + 1))

/-- `SQLFormatter._format_embedded_json` (lines 433-483). -/
def format_embedded_json (stmt : Str) : Str := fejLoop (stmt.length + 1) [] stmt

/-- No digit is immediately followed by `.`, `e` or `E`: rules out JSON
float and exponent literals. -/
def noFloatPair : Str → Bool
  | [] => true
  | [_] => true
  | c :: d :: rest =>
    !(c.isDigit && (d == '.' || d == 'e' || d == 'E')) && noFloatPair (d :: rest)

/-- Syntactic guard restricting a candidate span to the JSON fragment the
model shares exactly with `json.loads`/`json.dumps(indent=4)`: no
float/exponent literals, no `NaN`/`Infinity`, no `\u` escapes. -/
def jsonSafe (j : Str) : Bool :=
  noFloatPair j && !hasSub (S "NaN") j && !hasSub (S "Infinity") j &&
    !hasSub ['\\', 'u'] j

/-- What one replacement-loop iteration leaves in place of a candidate
span: the 4-space re-serialization when it parses, the span itself when it
does not. -/
def jcandResult (j : Str) : Str :=
  match jloads j with
  | some v => jdump v 0
  | none => j

/-- A statement assembled from candidate segments: each segment is a
candidate-free prefix followed by `='` and a `{...}` span. -/
def buildUpdStmt : List (Str × Str) → Str → Str
  | [], suffix => suffix
  | (pre, j) :: rest, suffix => pre ++ '=' :: '\'' :: (j ++ buildUpdStmt rest suffix)

/-- The same statement with every candidate span replaced by its processed
form. -/
def buildUpdResult : List (Str × Str) → Str → Str
  | [], suffix => suffix
  | (pre, j) :: rest, suffix =>
    pre ++ '=' :: '\'' :: (jcandResult j ++ buildUpdResult rest suffix)

/-! ## Splitter, dispatcher and `format_all` (source lines 11-96) -/

/-- `re.sub(r"^(?:\s*(?:/\*.*?\*/|--[^\n]*))*", "", part, flags=re.DOTALL)`
(source lines 71-72): repeatedly consume optional whitespace followed by a
block comment or a `--` line comment (which stops before the newline); a
final whitespace run not followed by a comment is kept. -/
def strip_leading_comments : Nat → Str → Str
  | 0, s => s
  | fuel + 1, s =>
    let t := s.drop (wsRun s)
    if begins (S "/*") t then
      match findCloseBC (t.drop 2) with
      | some rest => strip_leading_comments fuel rest
      | none => s
    else if begins dd t then
      strip_leading_comments fuel ((t.drop 2).dropWhile fun c => !(c == '\n'))
    else s

/-- The dispatch targets of `_DISPATCH_MAP` (source lines 29-38). -/
inductive Handler where
  | insertSelect
  | insertValues
  | setBlock
  | createTable
  | alterTable
  | updateBlock
  | deleteBlock
  | dropSimple
deriving DecidableEq, Repr

/-- `INSERT_SELECT_PATTERN.search` (source lines 12-15):
`INSERT\s+INTO\s+[^\s(]+\s*\(.*?\)\s*SELECT\b` anywhere in the cleaned
fragment. -/
def insert_select_search (s : Str) : Bool :=
  (scanFor (insertColsAt' fun v => beginsCI (S "SELECT") v && nonWordStart (v.drop 6))
    s).isSome
where
  /-- `insertColsAt` generalised over the close condition. -/
  insertColsAt' (closeP : Str → Bool) (s : Str) : Option Unit :=
    if beginsCI (S "INSERT") s then
      let t1 := s.drop 6
      let r1 := wsRun t1
      if r1 == 0 then none
      else
        let t2 := t1.drop r1
        if beginsCI (S "INTO") t2 then
          let t3 := t2.drop 4
          let r2 := wsRun t3
          if r2 == 0 then none
          else
            let t4 := t3.drop r2
            let tok := t4.takeWhile fun c => !pyWs c && !(c == '(')
            if tok.isEmpty then none
            else
              let t5 := t4.drop tok.length
              match t5.drop (wsRun t5) with
              | '(' :: u => if closeAny closeP u then some () else none
              | _ => none
        else none
    else none
  /-- Is there a `)` whose suffix satisfies `closeP` after whitespace? -/
  closeAny (closeP : Str → Bool) : Str → Bool
    | [] => false
    | c :: v => (c == ')' && closeP (v.drop (wsRun v))) || closeAny closeP v

/-- `INSERT_INTO_PATTERN` (`^INSERT\s+INTO`, applied to the uppercased
fragment). -/
def insert_into_match (u : Str) : Bool :=
  begins (S "INSERT") u &&
    (let t := u.drop 6
     let r := wsRun t
     r != 0 && begins (S "INTO") (t.drop r))

/-- `SET_PATTERN` (`^SET\s+[@\w]+\s*[:=]`). -/
def set_dispatch_match (u : Str) : Bool :=
  begins (S "SET") u &&
    (let t := u.drop 3
     let r := wsRun t
     r != 0 &&
       (let tok := (t.drop r).takeWhile fun c => c == '@' || wordChar c
        !tok.isEmpty &&
          (let t2 := (t.drop r).drop tok.length
           match (t2.drop (wsRun t2)).head? with
           | some c => c == ':' || c == '='
           | none => false)))

/-- First matching pattern of `_DISPATCH_MAP` (source lines 76-82); the
INSERT-SELECT pattern is searched on the cleaned fragment, the others are
start-anchored on its uppercase form. -/
def dispatch (cleaned : Str) : Option Handler :=
  if insert_select_search cleaned then some .insertSelect
  else
    let u := upper cleaned
    if insert_into_match u then some .insertValues
    else if set_dispatch_match u then some .setBlock
    else if begins (S "CREATE TABLE") u then some .createTable
    else if begins (S "ALTER TABLE") u then some .alterTable
    else if begins (S "UPDATE") u then some .updateBlock
    else if begins (S "DELETE FROM") u then some .deleteBlock
    else if begins (S "DROP TABLE") u || begins (S "DROP INDEX") u then
      some .dropSimple
    else none

/-- Is the string empty or starting with whitespace?  (No start-anchored
dispatch pattern can match such a fragment.) -/
def headWsOrEmpty : Str → Bool
  | [] => true
  | c :: _ => pyWs c

/-- `re.sub(r";{2,}$", ";", s)` (source line 93). -/
def semiCollapseEnd (s : Str) : Str :=
  let run := (s.reverse.takeWhile (· == ';')).length
  if run ≥ 2 then (s.reverse.drop run).reverse ++ [';'] else s

/-- The loop body of `format_all` (source lines 66-94) applied to one
stripped non-empty part: dispatch on the comment-stripped text, run the
selected formatter on the part plus `";"`, apply the embedded-JSON pass
for UPDATE when `pretty_json`, then the CASE pass and the trailing
semicolon collapse. -/
def process_part (part : Str) (pretty_json : Bool) : Except PyErr Str :=
  let cleaned := strip_leading_comments (part.length + 1) part
  let withSemi := part ++ [';']
  match dispatch cleaned with
  | some h =>
    let formatted : Except PyErr Str :=
      match h with
      | .insertSelect => .ok (format_insert_select_block withSemi)
      | .insertValues => .ok (format_insert_values_block withSemi)
      | .setBlock => format_set_block withSemi
      | .createTable => .ok (format_create_table withSemi)
      | .alterTable => .ok (format_alter_table withSemi)
      | .updateBlock =>
        (format_update_block withSemi).map fun r =>
          if pretty_json then format_embedded_json r else r
      | .deleteBlock => .ok (format_delete_block withSemi)
      | .dropSimple => .ok (format_simple_single_line withSemi)
    formatted.map fun f => semiCollapseEnd (format_case_expression f)
  | none =>
    let f := if part.getLast? == some ';' then part else part ++ [';']
    .ok (semiCollapseEnd (format_case_expression f))

/-- Leftmost `;\s*\n` separator (`re.split(r";\s*\n", sql)`): the greedy
`\s*` backtracks to end at the last newline of the whitespace run. -/
def findSemiNl : Str → Option (Str × Str)
  | [] => none
  | c :: cs =>
    if c == ';' then
      let r := wsRun cs
      let run := cs.take r
      if run.contains '\n' then
        let kRev := (run.reverse.takeWhile fun c => !(c == '\n')).length
        some ([], cs.drop (r - kRev))
      else (findSemiNl cs).map fun p => (c :: p.1, p.2)
    else (findSemiNl cs).map fun p => (c :: p.1, p.2)

/-- `re.split(r";\s*\n", sql, flags=re.DOTALL)` (source line 61; fuelled). -/
def split_semi_nl : Nat → Str → List Str
  | 0, s => [s]
  | fuel + 1, s =>
    match findSemiNl s with
    | none => [s]
    | some (p, rest) => p :: split_semi_nl fuel rest

/-- `SQLFormatter.format_all` (lines 51-96): split the input on
semicolon+newline boundaries, format every non-blank part, join with
blank lines.  An exception escaping a formatter aborts the whole call
(`Except.error`). -/
def format_all (sqlIn : Str) (pretty_json : Bool) : Except PyErr Str :=
  let sql := pystrip sqlIn
  let parts := split_semi_nl (sql.length + 1) sql
  if parts.isEmpty || (parts.length == 1 && (pystrip (parts.headD [])).isEmpty)
  then .ok []
  else
    let nonBlank := (parts.map pystrip).filter fun p => !p.isEmpty
    (nonBlank.mapM fun p => process_part p pretty_json).map (joinWith (S "\n\n"))

/-! ## `format_create_index`

The test suite (`testing/test_formatter.py`) exercises
`SQLFormatter.format_create_index`, but no such method exists in
`SQLFormatter.py`. -/

/-- Modelled from the spec: the header parse
`CREATE [UNIQUE] INDEX <name> ON <table> (<col-list>)` of spec §4.5,
with case-insensitive keywords (§4.1); `<name>`/`<table>` are the
whitespace-delimited tokens after `INDEX` and `ON`, and `<col-list>` is
the text between the opening `(` and the final `)`. -/
def createIndexParse (s : Str) : Option (Bool × Str × Str × Str) :=
  if beginsCI (S "CREATE") s then
    let t1 := s.drop 6
    let r1 := wsRun t1
    if r1 == 0 then none
    else
      let t2 := t1.drop r1
      let (uniq, t3) : Bool × Str :=
        if beginsCI (S "UNIQUE") t2 && wsRun (t2.drop 6) != 0 then
          (true, (t2.drop 6).drop (wsRun (t2.drop 6)))
        else (false, t2)
      if beginsCI (S "INDEX") t3 then
        let t4 := t3.drop 5
        let r2 := wsRun t4
        if r2 == 0 then none
        else
          let name := (t4.drop r2).takeWhile fun c => !pyWs c && !(c == '(')
          if name.isEmpty then none
          else
            let t5 := (t4.drop r2).drop name.length
            let r3 := wsRun t5
            if r3 == 0 then none
            else if beginsCI (S "ON") (t5.drop r3) then
              let t6 := (t5.drop r3).drop 2
              let r4 := wsRun t6
              if r4 == 0 then none
              else
                let table := (t6.drop r4).takeWhile fun c => !pyWs c && !(c == '(')
                if table.isEmpty then none
                else
                  let t7 := (t6.drop r4).drop table.length
                  match t7.drop (wsRun t7), t7.getLast? with
                  | '(' :: u, some ')' =>
                    if u.isEmpty then none
                    else some (uniq, name, table, u.take (u.length - 1))
                  | _, _ => none
            else none
      else none
  else none

/-- Modelled from the spec: `SQLFormatter.format_create_index` is called
by the tests (`testing/test_formatter.py`) and named by the spec (§4.5,
§6) but is missing from `SQLFormatter.py`.  Per spec §4.5: parse
`CREATE [UNIQUE] INDEX <name> ON <table> (<col-list>)`, split the column
list at top-level commas with the §4.2 quote/paren-aware splitter, and
always emit a multi-line block — header line ending in `(`, one column
expression per indented line with a trailing comma on all but the last,
closing `);`; malformed input degrades to the trimmed original (§1). -/
def format_create_index (sql : Str) : Str :=
  match createIndexParse (trim_semicolon sql) with
  | some (uniq, name, table, body) =>
    joinNL
      ((S "CREATE " ++ (if uniq then S "UNIQUE " else []) ++ S "INDEX " ++
          name ++ S " ON " ++ table ++ S " (") ::
        (addCommas (smart_split_csv body)).map (fun c => S "    " ++ c) ++
        [S ");"])
  | none => pystrip sql

theorem smartFold_no_split (t : Str) :
    ∀ (st : ScanSt) (parts : List Str) (cur rest : Str), noSplit st t = true →
      smartFold parts cur st (t ++ rest) =
        smartFold parts (cur ++ t) (scanEnd st t) rest := by
  induction t with
  | nil => intro st parts cur rest _; simp [scanEnd]
  | cons c cs ih =>
    intro st parts cur rest h
    simp only [noSplit, Bool.and_eq_true, Bool.not_eq_true'] at h
    simp only [List.cons_append, smartFold, h.1, Bool.false_eq_true, if_false,
      List.append_eq]
    rw [ih _ _ _ _ h.2]
    simp [scanEnd, List.append_assoc]

theorem smartFold_no_split_end (t : Str) (st : ScanSt) (parts : List Str)
    (cur : Str) (h : noSplit st t = true) :
    smartFold parts cur st t = (parts, cur ++ t, scanEnd st t) := by
  have := smartFold_no_split t st parts cur [] h
  rwa [List.append_nil] at this

theorem pystrip_cons_space (x : Str) : pystrip (' ' :: x) = pystrip x := by
  simp [pystrip, pylstrip, List.dropWhile, pyWs]

/-- Processing the tail tokens of a `", "`-join: each separator splits off
the previous token (with its leading pad space stripped), and the last
token remains in the accumulator prefixed by one space. -/
theorem smartFold_tail (rs : List Str) : ∀ (r : Str) (parts : List Str),
    cleanTok r = true → (∀ x ∈ rs, cleanTok x = true) →
    smartFold parts [' '] scanInit (joinWith (S ", ") (r :: rs)) =
      (parts ++ (r :: rs).dropLast, ' ' :: (r :: rs).getLast (by simp),
        scanInit) := by
  induction rs with
  | nil =>
    intro r parts hr _
    simp only [cleanTok, Bool.and_eq_true, decide_eq_true_eq] at hr
    simp only [joinWith]
    rw [smartFold_no_split_end r scanInit parts [' '] hr.1.2, hr.2]
    simp
  | cons r2 rs2 ih =>
    intro r parts hr hall
    have hr' := hr
    simp only [cleanTok, Bool.and_eq_true, decide_eq_true_eq] at hr'
    have hjoin : joinWith (S ", ") (r :: r2 :: rs2) =
        r ++ (',' :: ' ' :: joinWith (S ", ") (r2 :: rs2)) := by
      simp [joinWith, S]
    rw [hjoin, smartFold_no_split r scanInit parts [' '] _ hr'.1.2, hr'.2]
    have hsplit : isSplitComma scanInit ',' = true := by decide
    simp only [smartFold, hsplit, if_true]
    have hsp2 : isSplitComma scanInit ' ' = false := by decide
    have hstep : scanStep scanInit ' ' = scanInit := by decide
    simp only [hsp2, Bool.false_eq_true, if_false, hstep, List.nil_append]
    rw [ih r2 _ (hall r2 (by simp)) (fun x hx => hall x (by simp [hx]))]
    have hstrip : pystrip ([' '] ++ r) = r := by
      rw [List.singleton_append, pystrip_cons_space]
      exact hr'.1.1.2
    rw [hstrip]
    have hlast : (r :: r2 :: rs2).getLast (by simp) =
        (r2 :: rs2).getLast (by simp) := by
      simp [List.getLast_cons]
    simp [hlast, List.dropLast_cons₂]

/-- Round trip for clean tokens: joining with `", "` and smart-splitting
recovers the token list (shared helper for the round-trip and
CREATE INDEX theorems). -/
theorem smart_split_join_clean (toks : List Str)
    (h : ∀ x ∈ toks, cleanTok x = true) :
    smart_split_csv (joinWith (S ", ") toks) = toks := by
  cases toks with
  | nil => simp [joinWith, smart_split_csv, smartFold, pystrip, pylstrip, pyrstrip]
  | cons t rest =>
    have ht := h t (by simp)
    have ht' := ht
    simp only [cleanTok, Bool.and_eq_true, decide_eq_true_eq] at ht'
    have hstripT : pystrip t = t := ht'.1.1.2
    have hne : t.isEmpty = false := by
      simpa using ht'.1.1.1
    cases rest with
    | nil =>
      simp only [joinWith, smart_split_csv]
      rw [smartFold_no_split_end t scanInit [] [] ht'.1.2]
      simp only [List.nil_append, hne, Bool.not_false, Bool.true_or, if_true,
        List.isEmpty_nil, Bool.and_self]
      rw [hstripT]
      apply List.filter_eq_self.mpr
      intro p hp
      have hp' := h p (by simpa using hp)
      simp only [cleanTok, Bool.and_eq_true] at hp'
      simpa using hp'.1.1.1
    | cons r rs =>
      have hjoin : joinWith (S ", ") (t :: r :: rs) =
          t ++ (',' :: ' ' :: joinWith (S ", ") (r :: rs)) := by
        simp [joinWith, S]
      simp only [smart_split_csv, hjoin]
      rw [smartFold_no_split t scanInit [] [] _ ht'.1.2, ht'.2]
      have hsplit : isSplitComma scanInit ',' = true := by decide
      simp only [List.nil_append, smartFold, hsplit, if_true]
      have hsp2 : isSplitComma scanInit ' ' = false := by decide
      have hstep : scanStep scanInit ' ' = scanInit := by decide
      simp only [hsp2, Bool.false_eq_true, if_false, hstep, List.nil_append]
      rw [smartFold_tail rs r [pystrip t] (h r (by simp))
        (fun x hx => h x (by simp [hx]))]
      have hlastne : (' ' :: (r :: rs).getLast (by simp)).isEmpty = false := rfl
      simp only [hlastne, Bool.not_false, Bool.true_or, if_true]
      have hlastclean := h ((r :: rs).getLast (by simp))
        (by simp [List.getLast_mem])
      simp only [cleanTok, Bool.and_eq_true, decide_eq_true_eq] at hlastclean
      have hstripL : pystrip (' ' :: (r :: rs).getLast (by simp)) =
          (r :: rs).getLast (by simp) := by
        rw [pystrip_cons_space]; exact hlastclean.1.1.2
      rw [hstripT, hstripL]
      have hshape : t :: ((r :: rs).dropLast ++ [(r :: rs).getLast (by simp)]) =
          t :: r :: rs := by
        rw [List.dropLast_append_getLast (by simp)]
      simp only [List.singleton_append, List.cons_append, List.append_assoc,
        List.nil_append] at hshape ⊢
      rw [hshape]
      apply List.filter_eq_self.mpr
      intro p hp
      have hp' := h p hp
      simp only [cleanTok, Bool.and_eq_true] at hp'
      simpa using hp'.1.1.1

theorem caseMatchAt_none (c : Char) (cs : Str)
    (h : beginsCI (S "CASE") (c :: cs) = false) :
    caseMatchAt (c :: cs) = none := by
  simp [caseMatchAt, h]

theorem findCase_none (s : Str) (h : hasCaseCI s = false) :
    findCase s = none := by
  induction s with
  | nil => rfl
  | cons c cs ih =>
    simp only [hasCaseCI, Bool.or_eq_false_iff] at h
    simp [findCase, caseMatchAt_none c cs h.1, ih h.2]

theorem fceAux_none (fuel : Nat) (s : Str) (h : findCase s = none) :
    fceAux fuel s = s := by
  cases fuel with
  | zero => rfl
  | succ n => simp [fceAux, h]

/-- **C5** (amended): `format_case_expression` is the identity — and hence
idempotent — on every input that contains no `CASE` keyword (it is *not*
idempotent in general, see the counterexample). -/
theorem case_expression_noop_without_case_keyword (s : Str)
    (h : hasCaseCI s = false) :
    format_case_expression s = s ∧
      format_case_expression (format_case_expression s) =
        format_case_expression s := by
  have hid : format_case_expression s = s :=
    fceAux_none _ s (findCase_none s h)
  exact ⟨hid, by rw [hid]; exact hid⟩

/-- Witness for C5's amended theorem at a concrete CASE-free input. -/
theorem case_expression_noop_witness :
    hasCaseCI (S "SELECT 1 FROM tbl;") = false ∧
      format_case_expression (S "SELECT 1 FROM tbl;") = S "SELECT 1 FROM tbl;" :=
  ⟨by decide, (case_expression_noop_without_case_keyword _ (by decide)).1⟩

/-- **C5** (counterexample): `format_case_expression` is not idempotent —
re-applying it to its own output of `CASE ELSE x WHEN y THEN z END`
duplicates the WHEN line. -/
theorem case_expression_not_idempotent :
    format_case_expression
        (format_case_expression (S "CASE ELSE x WHEN y THEN z END")) ≠
      format_case_expression (S "CASE ELSE x WHEN y THEN z END") := by
  decide

/-- **C1** (code bug): contrary to the spec's never-raises contract,
`format_all` raises `IndexError` on `UPDATE t SET ,;` — the assignment
list splits into empty parts and `lines[0]` is taken on an empty list. -/
theorem format_all_raises_on_empty_assignment :
    format_all (S "UPDATE t SET ,;") true = .error .indexError := by
  rfl

/-- **C2**: `format_all` on `INSERT INTO foo(bar, baz) VALUES(1, 'qux');`
returns exactly the layout given in the spec, for either value of
`pretty_json`. -/
theorem format_all_insert_concrete (b : Bool) :
    format_all (S "INSERT INTO foo(bar, baz) VALUES(1, 'qux');") b =
      .ok (S "INSERT INTO foo (\n    bar,\n    baz\n) VALUES\n    (\n        1,    " ++
        dd ++ S " bar\n        'qux'  " ++ dd ++ S " baz\n    );") := by
  cases b <;> rfl

/-- **C4** (counterexample): the round trip fails for tokens containing
no comma at all — `["a'", "b"]` joins to `a', b`, whose unbalanced quote
swallows the separator, so splitting returns a single token. -/
theorem smart_split_round_trip_counterexample :
    (∀ t ∈ [S "a'", S "b"], hasSub (S ",") t = false) ∧
      smart_split_csv (joinWith (S ", ") [S "a'", S "b"]) ≠ [S "a'", S "b"] := by
  constructor
  · decide
  · decide

/-- **C4** (amended): the round trip holds for *clean* tokens — non-empty,
equal to their own strip, containing no top-level comma, and returning the
quote/escape/parenthesis scanner to its neutral state. -/
theorem smart_split_csv_round_trip (toks : List Str)
    (h : ∀ x ∈ toks, cleanTok x = true) :
    smart_split_csv (joinWith (S ", ") toks) = toks :=
  smart_split_join_clean toks h

/-- Witness for C4's amended theorem at a concrete token list. -/
theorem smart_split_csv_round_trip_witness :
    smart_split_csv (joinWith (S ", ") [S "a", S "f(x, y)", S "'b, c'"]) =
      [S "a", S "f(x, y)", S "'b, c'"] :=
  smart_split_csv_round_trip [S "a", S "f(x, y)", S "'b, c'"] (by decide)

/-- **C8** (code bug): `format_alter_table` collapses a single-action
ALTER TABLE to one line ending in `" ;"`, while the spec and
`testing/test_formatter.py` require a header line plus one indented
action line. -/
theorem alter_table_single_action_one_line :
    format_alter_table (S "ALTER TABLE foo ADD COLUMN bar int;") =
      S "ALTER TABLE foo ADD COLUMN bar int ;" := by
  decide

theorem splitAll_ne_nil (sep : Char) (s : Str) : splitAll sep s ≠ [] := by
  cases s with
  | nil => simp [splitAll]
  | cons c cs =>
    simp only [splitAll]
    split
    · simp
    · cases h : splitAll sep cs <;> simp

theorem insert_cols_of_ne_nil (colsStr : Str) : insert_cols_of colsStr ≠ [] := by
  unfold insert_cols_of
  intro h
  exact splitAll_ne_nil ',' colsStr (List.map_eq_nil_iff.mp h)

/-- The row loop stops at the first row whose token count differs from
the column count and returns exactly that row's diagnostic. -/
theorem values_row_lines_first_mismatch (cols : List Str) (table : Str)
    (hcols : cols ≠ []) (good : List Str) :
    ∀ (idx : Nat) (badRow : Str) (rest2 : List Str),
    (∀ r ∈ good, (row_tokens r).length = cols.length) →
    (row_tokens badRow).length ≠ cols.length →
    values_row_lines cols table (good ++ badRow :: rest2) idx =
      .error (if (row_tokens badRow).isEmpty
        then mismatch_empty_diag table cols (idx + good.length)
        else mismatch_count_diag table cols (row_tokens badRow)
          (idx + good.length)) := by
  induction good with
  | nil =>
    intro idx badRow rest2 _ hbad
    have hce : cols.isEmpty = false := by
      cases cols with
      | nil => exact absurd rfl hcols
      | cons a as => rfl
    simp only [List.nil_append, values_row_lines, hce, Bool.and_false,
      Bool.false_eq_true, if_false]
    by_cases he : (row_tokens badRow).isEmpty
    · simp [he]
    · have hne : ((row_tokens badRow).isEmpty = false) := by
        simpa using he
      have hb : (cols.length != (row_tokens badRow).length) = true := by
        simp [bne_iff_ne]
        omega
      simp [hne, hb]
  | cons g gs ih =>
    intro idx badRow rest2 hgood hbad
    have hglen : (row_tokens g).length = cols.length := hgood g (by simp)
    have hce : cols.isEmpty = false := by
      cases cols with
      | nil => exact absurd rfl hcols
      | cons a as => rfl
    have hgne : (row_tokens g).isEmpty = false := by
      have : cols.length ≠ 0 := by
        cases cols with
        | nil => exact absurd rfl hcols
        | cons a as => simp
      cases hrt : row_tokens g with
      | nil => rw [hrt] at hglen; simp at hglen; omega
      | cons x xs => rfl
    have hb : (cols.length != (row_tokens g).length) = false := by
      simp [bne_iff_ne]
      omega
    simp only [List.cons_append, values_row_lines, hgne, hce, Bool.and_false,
      Bool.false_and, Bool.false_eq_true, if_false, hb, List.append_eq]
    rw [ih (idx + 1) badRow rest2 (fun r hr => hgood r (by simp [hr])) hbad]
    have harith : idx + 1 + gs.length = idx + (g :: gs).length := by
      simp only [List.length_cons]
      omega
    simp only [Except.map, harith]

/-- **C3** (amended): when the INSERT parse succeeds and some row's
smart-split token count differs from the column count, the result is
exactly the diagnostic of the *first* offending row — naming the table,
the 1-based row index, the expected count and the column list, and, when
the offending row is non-empty, the found count and the literal value
list (an empty offending row gets the `Values are empty` wording
instead); rows after the offending one do not influence the result, and
no reformatted VALUES block is produced. -/
theorem insert_first_mismatch_diagnostic (sql colsStr valuesRaw table : Str)
    (good rest2 : List Str) (badRow : Str)
    (hc : find_insert_cols (S "VALUES") sql = some colsStr)
    (hv : find_values_block sql = some valuesRaw)
    (ht : find_insert_table sql = some table)
    (hr : insert_rows_of valuesRaw = .ok (good ++ badRow :: rest2))
    (hgood : ∀ r ∈ good, (row_tokens r).length = (insert_cols_of colsStr).length)
    (hbad : (row_tokens badRow).length ≠ (insert_cols_of colsStr).length) :
    format_insert_values_block sql =
      (if (row_tokens badRow).isEmpty
       then mismatch_empty_diag table (insert_cols_of colsStr) good.length
       else mismatch_count_diag table (insert_cols_of colsStr)
         (row_tokens badRow) good.length) := by
  have hne : (good ++ badRow :: rest2).isEmpty = false := by
    cases good <;> rfl
  simp only [format_insert_values_block, hc, hv, ht, hr, hne,
    Bool.false_eq_true, if_false]
  rw [values_row_lines_first_mismatch (insert_cols_of colsStr) table
    (insert_cols_of_ne_nil colsStr) good 0 badRow rest2 hgood hbad]
  simp

/-- Witness for C3's amended theorem at the mismatch example from the
test suite. -/
theorem insert_first_mismatch_witness :
    format_insert_values_block (S "INSERT INTO foo(bar, baz) VALUES(1);") =
      S "❌ Mismatch in row 1 for table 'foo':\n    Expected 2 values for columns: bar, baz\n    But found 1 values: 1" := by
  have h := insert_first_mismatch_diagnostic
    (S "INSERT INTO foo(bar, baz) VALUES(1);") (S "bar, baz") (S "(1)")
    (S "foo") [] [] (S "1") rfl rfl rfl rfl (by simp) (by decide)
  rw [h]
  decide

/-- **C3** (counterexample): an empty offending row `()` produces a
diagnostic without the found count and value list — the output of
`INSERT INTO t (a) VALUES (), (1);` never mentions `But found`. -/
theorem insert_mismatch_empty_row_counterexample :
    format_insert_values_block (S "INSERT INTO t (a) VALUES (), (1);") =
      S "❌ Mismatch in row 1 for table 't': Values are empty, but 1 columns are defined: a." ∧
    hasSub (S "But found")
      (format_insert_values_block (S "INSERT INTO t (a) VALUES (), (1);")) = false := by
  exact ⟨by decide, by decide⟩

theorem fejLoop_none (fuel : Nat) (done rest : Str)
    (h : fejFind rest = none) : fejLoop fuel done rest = done ++ rest := by
  cases fuel with
  | zero => rfl
  | succ n => simp [fejLoop, h]

theorem wsRun_le_length (s : Str) : wsRun s ≤ s.length :=
  (List.takeWhile_sublist _).length_le

theorem wsRun_append_nonws (cs : Str) (t : Char) (ts : Str) (h : pyWs t = false) :
    wsRun (cs ++ t :: ts) = wsRun cs := by
  induction cs with
  | nil => simp [wsRun, List.takeWhile_cons, h]
  | cons a as ih =>
    simp only [wsRun, List.cons_append, List.takeWhile_cons] at ih ⊢
    cases ha : pyWs a
    · simp [ha]
    · simp [ha, ih]

theorem drop1_cons {α : Type} (a : α) (l : List α) : (a :: l).drop 1 = l := rfl

theorem fejFind_prefix_candidate (pre j X : Str) (hj : j.head? = some '\x7b')
    (hpre : fejFind pre = none) :
    fejFind (pre ++ '=' :: '\'' :: (j ++ X)) = some (pre ++ ['=', '\''], j ++ X) := by
  obtain ⟨j', rfl⟩ : ∃ j', j = '\x7b' :: j' := by
    cases j with
    | nil => simp at hj
    | cons a as =>
      simp only [List.head?_cons, Option.some.injEq] at hj
      exact ⟨as, by rw [hj]⟩
  revert hpre
  induction pre with
  | nil => intro _; rfl
  | cons c cs ih =>
    intro hpre
    cases hcond : (c == '=' && ((cs.drop (wsRun cs)).head? == some '\'') &&
        (((cs.drop (wsRun cs)).drop 1).head? == some '\x7b')) with
    | true =>
      simp only [fejFind, hcond, if_true] at hpre
      exact Option.noConfusion hpre
    | false =>
      have hcs : fejFind cs = none := by
        simp only [fejFind, hcond, Bool.false_eq_true, if_false] at hpre
        cases hfc : fejFind cs with
        | none => rfl
        | some p => rw [hfc] at hpre; simp at hpre
      have hih := ih hcs
      simp only [List.cons_append] at hih ⊢
      have hw : wsRun (cs ++ '=' :: '\'' :: '\x7b' :: (j' ++ X)) = wsRun cs :=
        wsRun_append_nonws cs '=' _ (by decide)
      have hdr : (cs ++ '=' :: '\'' :: '\x7b' :: (j' ++ X)).drop (wsRun cs) =
          cs.drop (wsRun cs) ++ '=' :: '\'' :: '\x7b' :: (j' ++ X) :=
        List.drop_append_of_le_length (wsRun_le_length cs)
      simp only [fejFind, hw, hdr]
      cases hsplit : cs.drop (wsRun cs) with
      | nil => simp [hih]
      | cons q qs =>
        cases qs with
        | nil => simp [drop1_cons, hih]
        | cons r rr =>
          rw [hsplit] at hcond
          simp only [List.cons_append, List.head?_cons, drop1_cons] at hcond ⊢
          rw [hcond]
          simp [hih]

theorem find_balanced_json_append (s : Str) :
    ∀ (X : Str) (i : Nat) (instr esc : Bool) (lvl : Int) (k : Nat),
      find_balanced_json s i instr esc lvl = some k →
      find_balanced_json (s ++ X) i instr esc lvl = some k := by
  induction s with
  | nil =>
    intro X i instr esc lvl k h
    exact absurd h (by simp [find_balanced_json])
  | cons c cs ih =>
    intro X i instr esc lvl k h
    rw [List.cons_append]
    simp only [find_balanced_json] at h ⊢
    by_cases h1 : (c == '\\' && !esc) = true
    · rw [if_pos h1] at h ⊢; exact ih X _ _ _ _ _ h
    · rw [if_neg h1] at h ⊢
      by_cases h2 : (c == '"' && !esc) = true
      · rw [if_pos h2] at h ⊢; exact ih X _ _ _ _ _ h
      · rw [if_neg h2] at h ⊢
        by_cases h3 : (!instr && c == '\x7b') = true
        · rw [if_pos h3] at h ⊢; exact ih X _ _ _ _ _ h
        · rw [if_neg h3] at h ⊢
          by_cases h4 : (!instr && c == '\x7d') = true
          · rw [if_pos h4] at h ⊢
            by_cases h5 : (lvl - 1 == 0) = true
            · rw [if_pos h5] at h ⊢; exact h
            · rw [if_neg h5] at h ⊢; exact ih X _ _ _ _ _ h
          · rw [if_neg h4] at h ⊢; exact ih X _ _ _ _ _ h

theorem buildUpdStmt_length (segs : List (Str × Str)) (suffix : Str) :
    segs.length ≤ (buildUpdStmt segs suffix).length := by
  induction segs with
  | nil => simp [buildUpdStmt]
  | cons pj rest ih =>
    obtain ⟨pre, j⟩ := pj
    simp only [List.length_cons, buildUpdStmt, List.length_append]
    omega

theorem fejLoop_segments (segs : List (Str × Str)) :
    ∀ (fuel : Nat) (done suffix : Str),
      segs.length ≤ fuel →
      (∀ p ∈ segs, fejFind p.1 = none ∧ p.2.head? = some '\x7b' ∧
        find_balanced_json p.2 0 false false 0 = some (p.2.length - 1)) →
      fejFind suffix = none →
      fejLoop fuel done (buildUpdStmt segs suffix) =
        done ++ buildUpdResult segs suffix := by
  induction segs with
  | nil =>
    intro fuel done suffix _ _ hsuf
    simpa [buildUpdStmt, buildUpdResult] using fejLoop_none fuel done suffix hsuf
  | cons pj rest ih =>
    intro fuel done suffix hfuel hsegs hsuf
    obtain ⟨pre, j⟩ := pj
    obtain ⟨hpre, hj, hbal⟩ := hsegs (pre, j) (List.mem_cons_self _ _)
    have hrest : ∀ p ∈ rest, fejFind p.1 = none ∧ p.2.head? = some '\x7b' ∧
        find_balanced_json p.2 0 false false 0 = some (p.2.length - 1) :=
      fun p hp => hsegs p (List.mem_cons_of_mem _ hp)
    cases fuel with
    | zero => simp at hfuel
    | succ f =>
      have hflen : rest.length ≤ f := by
        simp only [List.length_cons] at hfuel; omega
      have hfind := fejFind_prefix_candidate pre j (buildUpdStmt rest suffix) hj hpre
      have hbal2 := find_balanced_json_append j (buildUpdStmt rest suffix) 0 false false 0
        (j.length - 1) hbal
      have hpos : 0 < j.length := by
        cases j with
        | nil => simp at hj
        | cons a as => simp
      have hjlen : j.length - 1 + 1 = j.length := Nat.succ_pred_eq_of_pos hpos
      simp only [buildUpdStmt, fejLoop, hfind, hbal2, hjlen, List.take_left,
        List.drop_left]
      cases hjl : jloads j with
      | some v =>
        show fejLoop f ((done ++ (pre ++ ['=', '\''])) ++ jdump v 0)
            (buildUpdStmt rest suffix) = done ++ buildUpdResult ((pre, j) :: rest) suffix
        rw [ih f ((done ++ (pre ++ ['=', '\''])) ++ jdump v 0) suffix hflen hrest hsuf]
        simp [buildUpdResult, jcandResult, hjl, List.append_assoc]
      | none =>
        show fejLoop f ((done ++ (pre ++ ['=', '\''])) ++ j)
            (buildUpdStmt rest suffix) = done ++ buildUpdResult ((pre, j) :: rest) suffix
        rw [ih f ((done ++ (pre ++ ['=', '\''])) ++ j) suffix hflen hrest hsuf]
        simp [buildUpdResult, jcandResult, hjl, List.append_assoc]

/-- **C6** (amended): with `pretty_json` enabled, the embedded-JSON pass
rewrites exactly the *single-quoted* `'{...}'` candidates after an `=`,
and it rewrites every one of them, left to right: for any statement
assembled from candidate-free prefixes, each followed by `='` and a
balanced `{...}` span, and closed by a candidate-free suffix, every span
that parses as a JSON value is re-serialised in place with 4-space
indentation, every span that does not parse is left byte-for-byte
untouched, and everything outside the spans is unchanged. A statement
with no `='{` occurrence — in particular one whose JSON value is bare,
i.e. unquoted — is the `segs = []` instance and is returned whole. The
`jsonSafe` hypothesis pins each span inside the JSON fragment (no
float/exponent literals, no `NaN`/`Infinity`, no `\u` escapes) on which
the embedded parser and serialiser agree exactly with Python's
`json.loads`/`json.dumps(indent=4)`. -/
theorem embedded_json_single_quoted_only (segs : List (Str × Str)) (suffix : Str)
    (hpre : ∀ p ∈ segs, fejFind p.1 = none)
    (hbrace : ∀ p ∈ segs, p.2.head? = some '\x7b')
    (hbal : ∀ p ∈ segs, find_balanced_json p.2 0 false false 0 = some (p.2.length - 1))
    (_hsafe : ∀ p ∈ segs, jsonSafe p.2 = true)
    (hsuf : fejFind suffix = none) :
    format_embedded_json (buildUpdStmt segs suffix) = buildUpdResult segs suffix := by
  have h := fejLoop_segments segs ((buildUpdStmt segs suffix).length + 1) [] suffix
    (le_trans (buildUpdStmt_length segs suffix) (Nat.le_succ _))
    (fun p hp => ⟨hpre p hp, hbrace p hp, hbal p hp⟩) hsuf
  simpa [format_embedded_json] using h

/-- Witness for C6's amended theorem: a two-candidate UPDATE statement in
which the first single-quoted span is valid JSON and gets re-serialised
while the second is malformed and stays untouched. -/
theorem embedded_json_single_quoted_only_witness :
    format_embedded_json (buildUpdStmt
        [(S "UPDATE t\n  SET\n    a ", S "\x7b\"k\": 1\x7d"),
         (S "',\n    b ", S "\x7b\"k\": \x7d")] (S "'\nWHERE id = 1;")) =
      buildUpdResult
        [(S "UPDATE t\n  SET\n    a ", S "\x7b\"k\": 1\x7d"),
         (S "',\n    b ", S "\x7b\"k\": \x7d")] (S "'\nWHERE id = 1;") ∧
    buildUpdStmt
        [(S "UPDATE t\n  SET\n    a ", S "\x7b\"k\": 1\x7d"),
         (S "',\n    b ", S "\x7b\"k\": \x7d")] (S "'\nWHERE id = 1;") =
      S "UPDATE t\n  SET\n    a ='\x7b\"k\": 1\x7d',\n    b ='\x7b\"k\": \x7d'\nWHERE id = 1;" ∧
    buildUpdResult
        [(S "UPDATE t\n  SET\n    a ", S "\x7b\"k\": 1\x7d"),
         (S "',\n    b ", S "\x7b\"k\": \x7d")] (S "'\nWHERE id = 1;") =
      S "UPDATE t\n  SET\n    a ='\x7b\n    \"k\": 1\n\x7d',\n    b ='\x7b\"k\": \x7d'\nWHERE id = 1;" :=
  ⟨embedded_json_single_quoted_only _ _ (by decide) (by decide) (by decide)
      (by decide) (by decide),
    by decide, by decide⟩

/-- **C6** (counterexample): with `pretty_json` enabled, a bare `{...}`
JSON value after `=` is *not* re-serialised — `format_all` keeps it
compact, unlike the pretty form the claim requires. -/
theorem embedded_json_bare_counterexample :
    format_all (S "UPDATE t SET a = \x7b\"k\":1\x7d WHERE id = 1;") true =
      .ok (S "UPDATE t\n  SET\n    a = \x7b\"k\":1\x7d\nWHERE id = 1;") ∧
    S "UPDATE t\n  SET\n    a = \x7b\"k\":1\x7d\nWHERE id = 1;" ≠
      S "UPDATE t\n  SET\n    a = \x7b\n    \"k\": 1\n\x7d\nWHERE id = 1;" :=
  ⟨by rfl, by decide⟩

/-- **C9**: `format_set_block` on an empty or whitespace-only string
raises (`ValueError` from `max()` on an empty sequence): the vacuous
all-lines-match pre-check passes an empty line list through to the
padding computation, so the fall-through return of the input is not
taken. -/
theorem set_block_whitespace_only_raises (s : Str) (h : pystrip s = []) :
    format_set_block s = .error .valueError := by
  unfold format_set_block
  rw [h]
  rfl

/-- Witness for C9 at the empty and a whitespace-only input. -/
theorem set_block_whitespace_only_witness :
    format_set_block (S "   \n ") = .error .valueError :=
  set_block_whitespace_only_raises (S "   \n ") (by decide)

theorem dispatch_none_of_ws_head (cleaned : Str)
    (h1 : headWsOrEmpty cleaned = true)
    (h2 : insert_select_search cleaned = false) :
    dispatch cleaned = none := by
  cases cleaned with
  | nil =>
    unfold dispatch
    rw [h2]
    rfl
  | cons c cs =>
    simp only [headWsOrEmpty] at h1
    have hcases : ((((c = ' ' ∨ c = '\t') ∨ c = '\n') ∨ c = '\r') ∨ c = '\x0b') ∨
        c = '\x0c' := by
      simpa [pyWs, Bool.or_eq_true, beq_iff_eq] using h1
    unfold dispatch
    rw [h2]
    simp only [Bool.false_eq_true, if_false]
    rcases hcases with ((((h | h) | h) | h) | h) | h <;> subst h <;> rfl

/-- **C10** (amended): a fragment whose comment-stripped text is empty or
retains leading whitespace (the case for every `--`-comment prefix, since
the stripper stops before the newline) matches *no* dispatch pattern —
the start-anchored ones fail on the whitespace and the INSERT-SELECT
search is assumed absent — so `format_all`'s loop body returns it through
the default branch: unchanged except for an appended semicolon when
missing, the CASE pass, and duplicate-semicolon collapsing.  In
particular the UPDATE formatter is not selected, no SET-block
reformatting happens, and the embedded-JSON pass does not run. -/
theorem comment_prefixed_passthrough (part : Str) (pretty : Bool)
    (h1 : headWsOrEmpty (strip_leading_comments (part.length + 1) part) = true)
    (h2 : insert_select_search (strip_leading_comments (part.length + 1) part) = false) :
    process_part part pretty =
      .ok (semiCollapseEnd (format_case_expression
        (if part.getLast? == some ';' then part else part ++ [';']))) := by
  simp only [process_part]
  rw [dispatch_none_of_ws_head _ h1 h2]

/-- Witness for C10's amended theorem on a block-comment-plus-space
UPDATE fragment. -/
theorem comment_prefixed_passthrough_witness :
    process_part (S "/* c */ UPDATE t SET a = 1") true =
      .ok (S "/* c */ UPDATE t SET a = 1;") := by
  rw [comment_prefixed_passthrough (S "/* c */ UPDATE t SET a = 1") true
    (by decide) (by decide)]
  rfl

/-- **C10** (counterexample): for a `--`-comment-prefixed UPDATE
fragment, the comment-stripped text starts with the leftover newline, so
the dispatcher selects *no* handler — refuting the claim that the UPDATE
formatter is selected. -/
theorem comment_update_dispatch_counterexample :
    strip_leading_comments ((dd ++ S " note\nUPDATE t SET a = 1").length + 1)
        (dd ++ S " note\nUPDATE t SET a = 1") = S "\nUPDATE t SET a = 1" ∧
    dispatch (strip_leading_comments ((dd ++ S " note\nUPDATE t SET a = 1").length + 1)
        (dd ++ S " note\nUPDATE t SET a = 1")) = none :=
  ⟨by decide, by decide⟩

/-- **C7** (spec-modelled): the spec-modelled `format_create_index` on a
parsed `CREATE [UNIQUE] INDEX <name> ON <table> (<col-list>)` statement
always produces the multi-line layout regardless of column count: the
header line ends in `(`, each column expression sits on its own indented
line with a trailing comma on all but the last, and the block closes with
`);`. -/
theorem create_index_always_multiline (uniq : Bool) (name table : Str)
    (cols : List Str) (sql : Str)
    (hp : createIndexParse (trim_semicolon sql) =
      some (uniq, name, table, joinWith (S ", ") cols))
    (hc : ∀ c ∈ cols, cleanTok c = true) :
    format_create_index sql =
      joinNL ((S "CREATE " ++ (if uniq then S "UNIQUE " else []) ++ S "INDEX " ++
          name ++ S " ON " ++ table ++ S " (") ::
        (addCommas cols).map (fun c => S "    " ++ c) ++ [S ");"]) := by
  simp only [format_create_index, hp]
  rw [smart_split_join_clean cols hc]

/-- Witness for C7 at the multi-column test-suite input. -/
theorem create_index_always_multiline_witness :
    format_create_index
        (S "CREATE UNIQUE INDEX idx ON schema.tbl (col1, col2 DESC, FUNC(col3, 1));") =
      S "CREATE UNIQUE INDEX idx ON schema.tbl (\n    col1,\n    col2 DESC,\n    FUNC(col3, 1)\n);" := by
  rw [create_index_always_multiline true (S "idx") (S "schema.tbl")
    [S "col1", S "col2 DESC", S "FUNC(col3, 1)"]
    (S "CREATE UNIQUE INDEX idx ON schema.tbl (col1, col2 DESC, FUNC(col3, 1));")
    (by decide) (by decide)]
  rfl

/-- Witness for C2 at `pretty_json = true`. -/
theorem format_all_insert_concrete_witness :
    format_all (S "INSERT INTO foo(bar, baz) VALUES(1, 'qux');") true =
      .ok (S "INSERT INTO foo (\n    bar,\n    baz\n) VALUES\n    (\n        1,    " ++
        dd ++ S " bar\n        'qux'  " ++ dd ++ S " baz\n    );") :=
  format_all_insert_concrete true
